import Mathlib

/-!
Verification development for the aurelio-sdk client library.

The Python sources under aurelio_sdk/ are shallowly embedded: each HTTP
attempt is drawn from an explicit trace of outcomes, the retry loops of
client.py and client_async.py become recursive Lean functions over that
trace, and pydantic response decoding becomes explicit decoders over a
small JSON value type.  Requests issued by the client are accumulated in
a log so that claims about which endpoints are hit, and with which form
fields and timeouts, can be stated.
-/

namespace AurelioSDK

/-! ## JSON values (the parsed bodies handed to pydantic constructors) -/

/-- A JSON value, as produced by response.json(). -/
inductive JVal : Type
  | str (s : String)
  | num (n : Int)
  | jbool (b : Bool)
  | null
  | arr (elems : List JVal)
  | obj (fields : List (String × JVal))

/-- Field lookup in a JSON object, first binding wins. -/
def jLookup (fs : List (String × JVal)) (k : String) : Option JVal :=
  match fs with
  | [] => none
  | (k1, v) :: rest => if k1 = k then some v else jLookup rest k

/-! ## Typed response records (aurelio_sdk/schema.py)

schema.py in src defines ChunkResponsePayload and ExtractResponsePayload;
the ChunkResponse, ExtractResponse and EmbeddingResponse classes imported
by both clients are absent from src, so they are modelled from the spec
(section 3, Response records) as mirroring the corresponding Payload
classes that are present.  The free-form metadata dictionaries (default
empty, never read by the client code) are not modelled. -/

/-- TaskStatus enum from schema.py: pending, completed, failed. -/
inductive TaskStatus : Type
  | pending
  | completed
  | failed
deriving DecidableEq, Repr

/-- SourceType enum from schema.py. -/
inductive SourceType : Type
  | application_pdf
  | text_plain
  | video_mp4
deriving DecidableEq, Repr

/-- ChunkerType enum from schema.py. -/
inductive ChunkerType : Type
  | semantic
  | regex
deriving DecidableEq, Repr

/-- ProcessingQuality enum from schema.py: low, high. -/
inductive ProcessingQuality : Type
  | low
  | high
deriving DecidableEq, Repr

/-- Usage record from schema.py: three optional integer fields. -/
structure Usage : Type where
  tokens : Option Int
  pages : Option Int
  seconds : Option Int
deriving DecidableEq, Repr

/-- ChunkingOptions from schema.py, all fields defaulted. -/
structure ChunkingOptions : Type where
  max_chunk_length : Int := 400
  chunker_type : ChunkerType := .regex
  window_size : Int := 1
  delimiters : List String := []
deriving DecidableEq, Repr

/-- ResponseChunk from schema.py (metadata dictionary not modelled). -/
structure ResponseChunk : Type where
  id : String
  content : String
  chunk_index : Int
  num_tokens : Int
deriving DecidableEq, Repr

/-- ResponseDocument from schema.py (metadata dictionary not modelled). -/
structure ResponseDocument : Type where
  id : String
  content : String
  source : String
  source_type : SourceType
  num_chunks : Int
  chunks : List ResponseChunk := []
deriving DecidableEq, Repr

/-- Modelled from the spec: ChunkResponse is imported by both clients from
aurelio_sdk/schema.py but is absent from src; following the spec and the
ChunkResponsePayload class that is present (schema.py lines 81-89), it has
required status, usage, processing_options and document fields and an
optional message. -/
structure ChunkResponse : Type where
  status : TaskStatus
  usage : Usage
  message : Option String
  processing_options : ChunkingOptions
  document : ResponseDocument
deriving DecidableEq, Repr

/-- ExtractProcessingOptions from schema.py. -/
structure ExtractProcessingOptions : Type where
  chunk : Bool
  quality : ProcessingQuality
deriving DecidableEq, Repr

/-- Modelled from the spec: ExtractResponse is imported by both clients from
aurelio_sdk/schema.py but is absent from src; following the spec and the
ExtractResponsePayload class that is present (schema.py lines 103-110). -/
structure ExtractResponse : Type where
  status : TaskStatus
  usage : Usage
  message : Option String
  processing_options : ExtractProcessingOptions
  document : ResponseDocument
deriving DecidableEq, Repr

/-- Modelled from the spec: EmbeddingResponse is absent from src; the spec
describes it only as an immutable record constructed from the decoded JSON
body, so it is modelled as carrying the decoded JSON object fields. -/
structure EmbeddingResponse : Type where
  fields : List (String × JVal)

/-! ## Decoders (pydantic model construction semantics)

Pydantic BaseModel construction from a decoded JSON dict: unknown extra
fields are ignored, a missing required field or an ill-typed value raises
a ValidationError (modelled as Except.error), optional fields fall back
to their defaults. -/

def decodeString : JVal → Except String String
  | .str s => .ok s
  | _ => .error ("expected string")

def decodeIntVal : JVal → Except String Int
  | .num n => .ok n
  | _ => .error ("expected integer")

def decodeBoolVal : JVal → Except String Bool
  | .jbool b => .ok b
  | _ => .error ("expected boolean")

def decodeTaskStatus : JVal → Except String TaskStatus
  | .str s =>
    if s = "pending" then .ok .pending
    else if s = "completed" then .ok .completed
    else if s = "failed" then .ok .failed
    else .error ("invalid TaskStatus")
  | _ => .error ("invalid TaskStatus")

def decodeSourceType : JVal → Except String SourceType
  | .str s =>
    if s = "application/pdf" then .ok .application_pdf
    else if s = "text/plain" then .ok .text_plain
    else if s = "video/mp4" then .ok .video_mp4
    else .error ("invalid SourceType")
  | _ => .error ("invalid SourceType")

def decodeChunkerType : JVal → Except String ChunkerType
  | .str s =>
    if s = "semantic" then .ok .semantic
    else if s = "regex" then .ok .regex
    else .error ("invalid ChunkerType")
  | _ => .error ("invalid ChunkerType")

def decodeQuality : JVal → Except String ProcessingQuality
  | .str s =>
    if s = "low" then .ok .low
    else if s = "high" then .ok .high
    else .error ("invalid ProcessingQuality")
  | _ => .error ("invalid ProcessingQuality")

/-- A required field: missing means a validation error. -/
def reqField (fs : List (String × JVal)) (k : String)
    (d : JVal → Except String α) : Except String α :=
  match jLookup fs k with
  | none => .error ("missing required field " ++ k)
  | some v => d v

/-- An optional field with a default (a present null is still type-checked). -/
def optFieldD (fs : List (String × JVal)) (k : String)
    (d : JVal → Except String α) (dflt : α) : Except String α :=
  match jLookup fs k with
  | none => .ok dflt
  | some v => d v

/-- An Optional[...] = None field: absent or null decodes to none. -/
def optField (fs : List (String × JVal)) (k : String)
    (d : JVal → Except String α) : Except String (Option α) :=
  match jLookup fs k with
  | none => .ok none
  | some .null => .ok none
  | some v => (d v).map some

def decodeUsage : JVal → Except String Usage
  | .obj fs => do
    let tokens ← optField fs "tokens" decodeIntVal
    let pages ← optField fs "pages" decodeIntVal
    let seconds ← optField fs "seconds" decodeIntVal
    .ok { tokens := tokens, pages := pages, seconds := seconds }
  | _ => .error ("expected Usage object")

def decodeStringList : JVal → Except String (List String)
  | .arr xs => xs.mapM decodeString
  | _ => .error ("expected list of strings")

def decodeChunkingOptions : JVal → Except String ChunkingOptions
  | .obj fs => do
    let mcl ← optFieldD fs "max_chunk_length" decodeIntVal 400
    let ct ← optFieldD fs "chunker_type" decodeChunkerType .regex
    let ws ← optFieldD fs "window_size" decodeIntVal 1
    let ds ← optFieldD fs "delimiters" decodeStringList []
    .ok { max_chunk_length := mcl, chunker_type := ct,
          window_size := ws, delimiters := ds }
  | _ => .error ("expected ChunkingOptions object")

def decodeResponseChunk : JVal → Except String ResponseChunk
  | .obj fs => do
    let id ← reqField fs "id" decodeString
    let content ← reqField fs "content" decodeString
    let ci ← reqField fs "chunk_index" decodeIntVal
    let nt ← reqField fs "num_tokens" decodeIntVal
    .ok { id := id, content := content, chunk_index := ci, num_tokens := nt }
  | _ => .error ("expected ResponseChunk object")

def decodeChunkList : JVal → Except String (List ResponseChunk)
  | .arr xs => xs.mapM decodeResponseChunk
  | _ => .error ("expected list of chunks")

def decodeResponseDocument : JVal → Except String ResponseDocument
  | .obj fs => do
    let id ← reqField fs "id" decodeString
    let content ← reqField fs "content" decodeString
    let source ← reqField fs "source" decodeString
    let st ← reqField fs "source_type" decodeSourceType
    let nc ← reqField fs "num_chunks" decodeIntVal
    let chunks ← optFieldD fs "chunks" decodeChunkList []
    .ok { id := id, content := content, source := source,
          source_type := st, num_chunks := nc, chunks := chunks }
  | _ => .error ("expected ResponseDocument object")

/-- Construction of the chunk response record from a decoded 200 body
(ChunkResponsePayload, schema.py lines 81-89): status, usage,
processing_options and document are required, message is optional. -/
def decodeChunkResponse : JVal → Except String ChunkResponse
  | .obj fs => do
    let status ← reqField fs "status" decodeTaskStatus
    let usage ← reqField fs "usage" decodeUsage
    let message ← optField fs "message" decodeString
    let po ← reqField fs "processing_options" decodeChunkingOptions
    let document ← reqField fs "document" decodeResponseDocument
    .ok { status := status, usage := usage, message := message,
          processing_options := po, document := document }
  | _ => .error ("expected ChunkResponse object")

def decodeExtractProcessingOptions : JVal → Except String ExtractProcessingOptions
  | .obj fs => do
    let chunk ← reqField fs "chunk" decodeBoolVal
    let quality ← reqField fs "quality" decodeQuality
    .ok { chunk := chunk, quality := quality }
  | _ => .error ("expected ExtractProcessingOptions object")

def decodeExtractResponse : JVal → Except String ExtractResponse
  | .obj fs => do
    let status ← reqField fs "status" decodeTaskStatus
    let usage ← reqField fs "usage" decodeUsage
    let message ← optField fs "message" decodeString
    let po ← reqField fs "processing_options" decodeExtractProcessingOptions
    let document ← reqField fs "document" decodeResponseDocument
    .ok { status := status, usage := usage, message := message,
          processing_options := po, document := document }
  | _ => .error ("expected ExtractResponse object")

/-- Modelled from the spec: the decoder into the EmbeddingResponse record
(whose field list is absent from src); it accepts any JSON object and
rejects non-objects. -/
def decodeEmbeddingResponse : JVal → Except String EmbeddingResponse
  | .obj fs => .ok { fields := fs }
  | _ => .error ("expected EmbeddingResponse object")

/-! ## Exceptions (aurelio_sdk/exceptions.py)

Only the data that distinguishes the exceptions is modelled: the class,
the status code carried by ApiError / ApiRateLimitError, the timeout value
carried by ApiTimeoutError, and the message string.  The base_url and
document_id arguments only decorate the message and are not modelled. -/

/-- The exceptions the clients can raise. -/
inductive ApiException : Type
  | apiError (statusCode : Option Nat) (message : String)
  | rateLimitError (statusCode : Option Nat)
  | timeoutError (timeout : Option Int)
deriving DecidableEq, Repr

/-- The class-plus-carried-data of an exception, with the free-text message
erased; used to compare sync and async behaviour by error type. -/
inductive ExnKind : Type
  | apiError (statusCode : Option Nat)
  | rateLimitError (statusCode : Option Nat)
  | timeoutError (timeout : Option Int)
deriving DecidableEq, Repr

def ApiException.kind : ApiException → ExnKind
  | .apiError sc _ => .apiError sc
  | .rateLimitError sc => .rateLimitError sc
  | .timeoutError t => .timeoutError t

/-- Erase message strings from a call result, keeping the success value or
the error kind. -/
def outcomeKind (r : Except ApiException α) : Except ExnKind α :=
  match r with
  | .ok a => .ok a
  | .error e => .error e.kind

/-! ## HTTP attempts

Each attempt at an HTTP call is drawn from a trace.  An attempt either
completes with a status code, the raw body text and the parsed JSON body,
or fails with a transport-level timeout, or fails with some other
exception (connection reset, etc.) carrying its message. -/

/-- The outcome of one HTTP attempt. -/
inductive Outcome : Type
  | httpStatus (code : Nat) (text : String) (body : JVal)
  | timeout
  | exn (msg : String)

/-- The sequence of HTTP outcomes a call will observe, one per attempt. -/
abbrev Trace := Nat → Outcome

/-- The remote endpoints the clients hit. -/
inductive Endpoint : Type
  | chunkEp
  | extractFileEp
  | extractUrlEp
  | getDocumentEp
  | embeddingsEp
deriving DecidableEq, Repr

/-- One request as issued on the wire: the endpoint, the model and wait
form fields sent with extract submissions, and the request-level timeout
(none when no timeout is set). -/
structure RequestRecord : Type where
  endpoint : Endpoint
  modelField : Option String := none
  waitField : Option Int := none
  timeout : Option Int
deriving DecidableEq, Repr

/-! ## The retry loop (shared shape of every operation in client.py and
client_async.py)

Every operation runs for attempt in range(1, retries + 1):
  status 200 -> decode and return (a decode failure falls into the generic
    exception handler: immediate ApiError);
  status 429 -> raise ApiRateLimitError immediately;
  status >= 500 -> retry, or ApiError with the body text on the last attempt;
  any other status -> immediate ApiError with the body text;
  transport timeout -> handled per operation (see TimeoutPolicy);
  any other exception -> immediate ApiError wrapping the message.
Falling out of the loop (only possible when retries = 0) raises a final
ApiError. -/

/-- How an operation handles a transport-level timeout:
retryThenRaise is the except Timeout handler (retry; ApiTimeoutError
carrying t on the last attempt); wrapGeneric is the synchronous chunk
operation, which has no timeout handler so the generic except wraps the
timeout as an immediate ApiError; raiseImmediately is the asynchronous
get_document operation, which raises ApiTimeoutError without retrying. -/
inductive TimeoutPolicy : Type
  | retryThenRaise (t : Option Int)
  | wrapGeneric (msg : String)
  | raiseImmediately (t : Option Int)

/-- Per-operation data of the retry loop. -/
structure LoopEnv (α : Type) : Type where
  req : RequestRecord
  decode : JVal → Except String α
  timeoutPolicy : TimeoutPolicy
  exhaustedMsg : String

/-- Result of a call: the value or exception, the next unread trace
position, and the accumulated request log. -/
abbrev CallResult (α : Type) := Except ApiException α × Nat × List RequestRecord

/-- The retry loop, recursing on the number of attempts left; remaining = 0
inside the successor branch means the current attempt is the last one
(attempt == retries in the source). -/
def runLoopGo (env : LoopEnv α) (trace : Trace) :
    Nat → Nat → List RequestRecord → CallResult α
  | 0, idx, log => (.error (.apiError none env.exhaustedMsg), idx, log)
  | remaining + 1, idx, log =>
    let log1 := log ++ [env.req]
    match trace idx with
    | .httpStatus code text body =>
      if code = 200 then
        match env.decode body with
        | .ok r => (.ok r, idx + 1, log1)
        | .error m => (.error (.apiError none m), idx + 1, log1)
      else if code = 429 then
        (.error (.rateLimitError (some 429)), idx + 1, log1)
      else if 500 ≤ code then
        if remaining = 0 then (.error (.apiError (some code) text), idx + 1, log1)
        else runLoopGo env trace remaining (idx + 1) log1
      else
        (.error (.apiError (some code) text), idx + 1, log1)
    | .timeout =>
      match env.timeoutPolicy with
      | .retryThenRaise t =>
        if remaining = 0 then (.error (.timeoutError t), idx + 1, log1)
        else runLoopGo env trace remaining (idx + 1) log1
      | .wrapGeneric m => (.error (.apiError none m), idx + 1, log1)
      | .raiseImmediately t => (.error (.timeoutError t), idx + 1, log1)
    | .exn m => (.error (.apiError none m), idx + 1, log1)

/-- Run the retry loop with the full budget of retries attempts. -/
def runLoop (env : LoopEnv α) (trace : Trace) (retries : Nat)
    (idx : Nat) (log : List RequestRecord) : CallResult α :=
  runLoopGo env trace retries idx log

/-! ## Operation instantiations -/

/-- Message standing for str(e) of the requests timeout exception that the
synchronous chunk operation, lacking a timeout handler, wraps generically. -/
def requestsTimeoutText : String := "requests.exceptions.Timeout"

/-- AurelioClient.chunk (client.py lines 78-153): no except Timeout branch,
so transport timeouts fall into the generic handler. -/
def syncChunkEnv (timeout : Int) (retries : Nat) : LoopEnv ChunkResponse :=
  { req := { endpoint := .chunkEp, waitField := none, timeout := some timeout }
    decode := decodeChunkResponse
    timeoutPolicy := .wrapGeneric requestsTimeoutText
    exhaustedMsg := "Failed to get response after " ++ toString retries ++ " retries" }

/-- AurelioClient.chunk run against a trace. -/
def syncChunk (trace : Trace) (retries : Nat) (timeout : Int)
    (idx : Nat) (log : List RequestRecord) : CallResult ChunkResponse :=
  runLoop (syncChunkEnv timeout retries) trace retries idx log

/-- AsyncAurelioClient.chunk (client_async.py lines 86-170): timeouts are
retried, ApiTimeoutError carrying the configured timeout on the last
attempt. -/
def asyncChunkEnv (timeout : Int) : LoopEnv ChunkResponse :=
  { req := { endpoint := .chunkEp, waitField := none, timeout := some timeout }
    decode := decodeChunkResponse
    timeoutPolicy := .retryThenRaise (some timeout)
    exhaustedMsg := "Failed to get chunk response" }

/-- AsyncAurelioClient.chunk run against a trace. -/
def asyncChunk (trace : Trace) (retries : Nat) (timeout : Int)
    (idx : Nat) (log : List RequestRecord) : CallResult ChunkResponse :=
  runLoop (asyncChunkEnv timeout) trace retries idx log

/-- AurelioClient.get_document (client.py lines 475-547). -/
def syncGetDocumentEnv (timeout : Int) : LoopEnv ExtractResponse :=
  { req := { endpoint := .getDocumentEp, waitField := none, timeout := some timeout }
    decode := decodeExtractResponse
    timeoutPolicy := .retryThenRaise (some timeout)
    exhaustedMsg := "Failed to get response from document endpoint" }

/-- AurelioClient.get_document run against a trace. -/
def syncGetDocument (trace : Trace) (retries : Nat) (timeout : Int)
    (idx : Nat) (log : List RequestRecord) : CallResult ExtractResponse :=
  runLoop (syncGetDocumentEnv timeout) trace retries idx log

/-- AsyncAurelioClient.get_document (client_async.py lines 614-697): the
only timeout handler is except aiohttp.ConnectionTimeoutError, which
raises ApiTimeoutError at once; no timeout is ever retried. -/
def asyncGetDocumentEnv (timeout : Int) : LoopEnv ExtractResponse :=
  { req := { endpoint := .getDocumentEp, waitField := none, timeout := some timeout }
    decode := decodeExtractResponse
    timeoutPolicy := .raiseImmediately (some timeout)
    exhaustedMsg := "Failed to get document response" }

/-- AsyncAurelioClient.get_document run against a trace. -/
def asyncGetDocument (trace : Trace) (retries : Nat) (timeout : Int)
    (idx : Nat) (log : List RequestRecord) : CallResult ExtractResponse :=
  runLoop (asyncGetDocumentEnv timeout) trace retries idx log

/-- AurelioClient.embedding (client.py lines 592-677). -/
def syncEmbeddingEnv (timeout : Int) : LoopEnv EmbeddingResponse :=
  { req := { endpoint := .embeddingsEp, waitField := none, timeout := some timeout }
    decode := decodeEmbeddingResponse
    timeoutPolicy := .retryThenRaise (some timeout)
    exhaustedMsg := "Failed to get response from embedding endpoint" }

/-- AurelioClient.embedding run against a trace. -/
def syncEmbedding (trace : Trace) (retries : Nat) (timeout : Int)
    (idx : Nat) (log : List RequestRecord) : CallResult EmbeddingResponse :=
  runLoop (syncEmbeddingEnv timeout) trace retries idx log

/-- AsyncAurelioClient.embedding (client_async.py lines 742-824). -/
def asyncEmbeddingEnv (timeout : Int) : LoopEnv EmbeddingResponse :=
  { req := { endpoint := .embeddingsEp, waitField := none, timeout := some timeout }
    decode := decodeEmbeddingResponse
    timeoutPolicy := .retryThenRaise (some timeout)
    exhaustedMsg := "Failed to get embedding response" }

/-- AsyncAurelioClient.embedding run against a trace. -/
def asyncEmbedding (trace : Trace) (retries : Nat) (timeout : Int)
    (idx : Nat) (log : List RequestRecord) : CallResult EmbeddingResponse :=
  runLoop (asyncEmbeddingEnv timeout) trace retries idx log

/-! ## Model inference for extraction (quality-to-model mapping) -/

/-- ASCII lowercasing (the Python str.lower used by the clients; the
inputs involved are ASCII). -/
def lowerStr (s : String) : String := String.mk (s.data.map Char.toLower)

/-- Split a character list on the slash separator. -/
def splitOnSlash : List Char → List (List Char)
  | [] => [[]]
  | x :: rest =>
    match splitOnSlash rest with
    | [] => [[]]
    | hd :: tl => if x = '/' then [] :: hd :: tl else (x :: hd) :: tl

/-- The last path component, as pathlib.PurePath.name on a POSIX path
(auxiliary: the special components "." and ".." are not special-cased, the
clients never pass them). -/
def pathName (p : String) : String :=
  let comps := (splitOnSlash p.data).filter (fun c => decide (c ≠ []))
  match comps.getLast? with
  | some c => String.mk c
  | none => ""

/-- Index of the last dot in a character list. -/
def lastDotIdx : List Char → Option Nat
  | [] => none
  | c :: rest =>
    match lastDotIdx rest with
    | some i => some (i + 1)
    | none => if c = '.' then some 0 else none

/-- pathlib.PurePath.suffix: the substring of the name from its last dot,
empty when the last dot is the first or last character of the name (so a
dotfile such as ".mp4" has an empty suffix). -/
def pathSuffix (p : String) : String :=
  let cs := (pathName p).toList
  match lastDotIdx cs with
  | some i => if 0 < i ∧ i < cs.length - 1 then String.mk (cs.drop i) else ""
  | none => ""

/-- Whether the first list is a leading segment of the second. -/
def startsWithChars : List Char → List Char → Bool
  | [], _ => true
  | _ :: _, [] => false
  | a :: as, b :: bs => a = b && startsWithChars as bs

/-- Whether pat occurs as a contiguous segment of the list. -/
def hasSubChars (pat : List Char) : List Char → Bool
  | [] => startsWithChars pat []
  | b :: bs => startsWithChars pat (b :: bs) || hasSubChars pat bs

/-- The Python str.endswith. -/
def endsWithStr (s pat : String) : Bool :=
  startsWithChars pat.data.reverse s.data.reverse

/-- Whether pat occurs as a substring of s (the Python in operator). -/
def containsSub (s pat : String) : Bool := hasSubChars pat.data s.data

/-- Model selection of extract_file (client.py lines 200-218, identical in
client_async.py lines 221-239): when no model is given, a file whose
lowercased pathlib suffix is .mp4 maps to aurelio-base regardless of
quality, quality high maps to docling-base, anything else to aurelio-base.
A falsy (absent or empty) file_path is modelled as none; fileName is the
name attribute of the file object when it has one. -/
def inferFileModel (filePath fileName : Option String)
    (quality : Option ProcessingQuality) (modelArg : Option String) : String :=
  match modelArg with
  | some m => m
  | none =>
    let isVideo : Bool :=
      match filePath with
      | some p => lowerStr (pathSuffix p) == ".mp4"
      | none =>
        match fileName with
        | some n => lowerStr (pathSuffix n) == ".mp4"
        | none => false
    if isVideo then "aurelio-base"
    else if quality = some .high then "docling-base"
    else "aurelio-base"

/-- Model selection of extract_url (client.py lines 369-383, identical in
client_async.py lines 504-518): when no model is given, a URL whose
lowercased form ends in .mp4 or contains the substring video maps to
aurelio-base regardless of quality, quality high maps to docling-base,
anything else to aurelio-base. -/
def inferUrlModel (url : String)
    (quality : Option ProcessingQuality) (modelArg : Option String) : String :=
  match modelArg with
  | some m => m
  | none =>
    let lowerUrl := lowerStr url
    let isVideoUrl := endsWithStr lowerUrl (".mp4") || containsSub lowerUrl ("video")
    if isVideoUrl then "aurelio-base"
    else if quality = some .high then "docling-base"
    else "aurelio-base"

/-! ## Polling (wait_for)

The poll loop of both clients: fetch the document once, then while the
status is not terminal, sleep for polling_interval, break once the elapsed
time exceeds the wait budget (no deadline at all when wait < 0), else
fetch again; the last fetched response is returned.  Network time is not
modelled, so the elapsed time after k sleeps is k * polling_interval.
The recursion carries explicit fuel; a none result means the model ran
out of fuel (which lemma waitForGo_fuel rules out for the executions the
claims are about). -/

/-- Membership of FINAL_STATES = completed, failed. -/
def isFinalStatus (s : TaskStatus) : Bool := s = .completed || s = .failed

/-- Result of a call whose polling model may run out of fuel. -/
abbrev OptCallResult (α : Type) := Option (Except ApiException α) × Nat × List RequestRecord

/-- The while loop of wait_for, generic in the get_document runner
(sync and async wait_for call their own client.get_document with its
default timeout 30 and retries 3).  r is the last fetched response and t
the elapsed time. -/
def waitForGo (getDoc : Nat → List RequestRecord → CallResult ExtractResponse)
    (wait p : Int) :
    Nat → ExtractResponse → Int → Nat → List RequestRecord →
    OptCallResult ExtractResponse
  | fuel, r, t, idx, log =>
    if isFinalStatus r.status then (some (.ok r), idx, log)
    else
      let t1 := t + p
      if 0 ≤ wait ∧ wait < t1 then (some (.ok r), idx, log)
      else
        match fuel with
        | 0 => (none, idx, log)
        | fuel + 1 =>
          match getDoc idx log with
          | (.ok r1, idx1, log1) => waitForGo getDoc wait p fuel r1 t1 idx1 log1
          | (.error e, idx1, log1) => (some (.error e), idx1, log1)

/-- wait_for, generic in the get_document runner: one initial fetch, then
the poll loop starting at elapsed time zero. -/
def waitForWith (getDoc : Nat → List RequestRecord → CallResult ExtractResponse)
    (wait p : Int) (fuel : Nat) (idx : Nat) (log : List RequestRecord) :
    OptCallResult ExtractResponse :=
  match getDoc idx log with
  | (.ok r, idx1, log1) => waitForGo getDoc wait p fuel r 0 idx1 log1
  | (.error e, idx1, log1) => (some (.error e), idx1, log1)

/-- AurelioClient.wait_for (client.py lines 549-590). -/
def syncWaitFor (trace : Trace) (wait p : Int) (fuel : Nat)
    (idx : Nat) (log : List RequestRecord) : OptCallResult ExtractResponse :=
  waitForWith (fun i l => syncGetDocument trace 3 30 i l) wait p fuel idx log

/-- AsyncAurelioClient.wait_for (client_async.py lines 699-740). -/
def asyncWaitFor (trace : Trace) (wait p : Int) (fuel : Nat)
    (idx : Nat) (log : List RequestRecord) : OptCallResult ExtractResponse :=
  waitForWith (fun i l => asyncGetDocument trace 3 30 i l) wait p fuel idx log

/-! ## Extraction operations

aurelio_sdk/const.py is absent from src, so WAIT_TIME_BEFORE_POLLING (the
short wait form field sent when client-side polling will follow, wtbp
below) is passed as an explicit parameter rather than fixed to a value. -/

/-- Loop environment of an extract submission. -/
def extractEnv (ep : Endpoint) (model : String) (initialWait : Int)
    (sessionTimeout : Option Int) (msg : String) : LoopEnv ExtractResponse :=
  { req := { endpoint := ep, modelField := some model,
             waitField := some initialWait, timeout := sessionTimeout }
    decode := decodeExtractResponse
    timeoutPolicy := .retryThenRaise sessionTimeout
    exhaustedMsg := msg }

/-- Shared post-submission logic of the sync extract operations (client.py
lines 308-327 and 454-473): return at once when wait = 0, when the status
is terminal, or when polling_interval <= 0; else poll via wait_for. -/
def syncExtractTail (trace : Trace) (wait pollingInterval : Int) (fuel : Nat) :
    CallResult ExtractResponse → OptCallResult ExtractResponse
  | (.error e, idx1, log1) => (some (.error e), idx1, log1)
  | (.ok r, idx1, log1) =>
    if wait = 0 then (some (.ok r), idx1, log1)
    else if isFinalStatus r.status || pollingInterval ≤ 0 then (some (.ok r), idx1, log1)
    else syncWaitFor trace wait pollingInterval fuel idx1 log1

/-- The submission loop environment of AurelioClient.extract_file: the
wait form field is WAIT_TIME_BEFORE_POLLING when client-side polling will
follow and the full wait otherwise (client.py lines 226-227), and the
request timeout is wait + 1 for positive wait and absent otherwise
(client.py line 229). -/
def syncExtractFileEnv (filePath fileName : Option String)
    (quality : Option ProcessingQuality) (modelArg : Option String)
    (wait pollingInterval wtbp : Int) (retries : Nat) : LoopEnv ExtractResponse :=
  extractEnv .extractFileEp (inferFileModel filePath fileName quality modelArg)
    (if 0 < pollingInterval then wtbp else wait)
    (if 0 < wait then some (wait + 1) else none)
    ("Failed to receive a valid response after " ++ toString retries ++ " retries")

/-- AurelioClient.extract_file (client.py lines 155-327). -/
def syncExtractFile (trace : Trace) (filePath fileName : Option String)
    (quality : Option ProcessingQuality) (modelArg : Option String)
    (wait pollingInterval : Int) (retries : Nat) (wtbp : Int) (fuel : Nat)
    (idx : Nat) (log : List RequestRecord) : OptCallResult ExtractResponse :=
  syncExtractTail trace wait pollingInterval fuel
    (runLoop
      (syncExtractFileEnv filePath fileName quality modelArg wait pollingInterval wtbp retries)
      trace retries idx log)

/-- The submission loop environment of AurelioClient.extract_url
(client.py lines 392-396). -/
def syncExtractUrlEnv (url : String)
    (quality : Option ProcessingQuality) (modelArg : Option String)
    (wait pollingInterval wtbp : Int) (retries : Nat) : LoopEnv ExtractResponse :=
  extractEnv .extractUrlEp (inferUrlModel url quality modelArg)
    (if 0 < pollingInterval then wtbp else wait)
    (if 0 < wait then some (wait + 1) else none)
    ("Failed to receive a valid response after " ++ toString retries ++ " retries")

/-- AurelioClient.extract_url (client.py lines 329-473). -/
def syncExtractUrl (trace : Trace) (url : String)
    (quality : Option ProcessingQuality) (modelArg : Option String)
    (wait pollingInterval : Int) (retries : Nat) (wtbp : Int) (fuel : Nat)
    (idx : Nat) (log : List RequestRecord) : OptCallResult ExtractResponse :=
  syncExtractTail trace wait pollingInterval fuel
    (runLoop
      (syncExtractUrlEnv url quality modelArg wait pollingInterval wtbp retries)
      trace retries idx log)

/-- Shared post-submission logic of AsyncAurelioClient.extract_file
(client_async.py lines 447-465), identical to the sync tail. -/
def asyncExtractFileTail (trace : Trace) (wait pollingInterval : Int) (fuel : Nat) :
    CallResult ExtractResponse → OptCallResult ExtractResponse
  | (.error e, idx1, log1) => (some (.error e), idx1, log1)
  | (.ok r, idx1, log1) =>
    if wait = 0 then (some (.ok r), idx1, log1)
    else if isFinalStatus r.status || pollingInterval ≤ 0 then (some (.ok r), idx1, log1)
    else asyncWaitFor trace wait pollingInterval fuel idx1 log1

/-- The submission loop environment of AsyncAurelioClient.extract_file
(client_async.py lines 241-258). -/
def asyncExtractFileEnv (filePath fileName : Option String)
    (quality : Option ProcessingQuality) (modelArg : Option String)
    (wait pollingInterval wtbp : Int) : LoopEnv ExtractResponse :=
  extractEnv .extractFileEp (inferFileModel filePath fileName quality modelArg)
    (if 0 < pollingInterval then wtbp else wait)
    (if wait ≤ 0 then none else some (wait + 1))
    ("Failed to get document response")

/-- AsyncAurelioClient.extract_file (client_async.py lines 172-465). -/
def asyncExtractFile (trace : Trace) (filePath fileName : Option String)
    (quality : Option ProcessingQuality) (modelArg : Option String)
    (wait pollingInterval : Int) (retries : Nat) (wtbp : Int) (fuel : Nat)
    (idx : Nat) (log : List RequestRecord) : OptCallResult ExtractResponse :=
  asyncExtractFileTail trace wait pollingInterval fuel
    (runLoop
      (asyncExtractFileEnv filePath fileName quality modelArg wait pollingInterval wtbp)
      trace retries idx log)

/-- AsyncAurelioClient.extract_url (client_async.py lines 467-612): note
the wait form field uses WAIT_TIME_BEFORE_POLLING only when
polling_interval < 0 (line 539), and polling is skipped only when
polling_interval == 0 (line 604) - both conditions differ from every
other extract operation. -/
def asyncExtractUrlEnv (url : String)
    (quality : Option ProcessingQuality) (modelArg : Option String)
    (wait pollingInterval wtbp : Int) : LoopEnv ExtractResponse :=
  extractEnv .extractUrlEp (inferUrlModel url quality modelArg)
    (if pollingInterval < 0 then wtbp else wait)
    (if wait ≤ 0 then none else some (wait + 1))
    ("Failed to get document response from url " ++ url)

/-- Post-submission logic of AsyncAurelioClient.extract_url
(client_async.py lines 593-612): polling is skipped only when
polling_interval == 0, unlike the ≤ 0 check of the other three extract
operations. -/
def asyncExtractUrlTail (trace : Trace) (wait pollingInterval : Int) (fuel : Nat) :
    CallResult ExtractResponse → OptCallResult ExtractResponse
  | (.error e, idx1, log1) => (some (.error e), idx1, log1)
  | (.ok r, idx1, log1) =>
    if wait = 0 then (some (.ok r), idx1, log1)
    else if isFinalStatus r.status || pollingInterval = 0 then (some (.ok r), idx1, log1)
    else asyncWaitFor trace wait pollingInterval fuel idx1 log1

/-- AsyncAurelioClient.extract_url run against a trace. -/
def asyncExtractUrl (trace : Trace) (url : String)
    (quality : Option ProcessingQuality) (modelArg : Option String)
    (wait pollingInterval : Int) (retries : Nat) (wtbp : Int) (fuel : Nat)
    (idx : Nat) (log : List RequestRecord) : OptCallResult ExtractResponse :=
  asyncExtractUrlTail trace wait pollingInterval fuel
    (runLoop
      (asyncExtractUrlEnv url quality modelArg wait pollingInterval wtbp)
      trace retries idx log)

/-! ## Concrete sample bodies and records used by witnesses -/

/-- A minimal well-formed document body. -/
def docBody (i : String) : JVal :=
  .obj [("id", .str i), ("content", .str ""), ("source", .str ""),
        ("source_type", .str "application/pdf"), ("num_chunks", .num 0)]

/-- A well-formed 200 body for both the chunk and the extract decoders
(its processing_options object carries the extract fields; the chunk
decoder ignores them and falls back to the ChunkingOptions defaults). -/
def okBody (st : String) (i : String) : JVal :=
  .obj [("status", .str st), ("usage", .obj []),
        ("processing_options", .obj [("chunk", .jbool false), ("quality", .str "low")]),
        ("document", docBody i)]

def sampleDoc (i : String) : ResponseDocument :=
  { id := i, content := "", source := "", source_type := .application_pdf,
    num_chunks := 0, chunks := [] }

def sampleUsage : Usage := { tokens := none, pages := none, seconds := none }

def sampleExtract (st : TaskStatus) (i : String) : ExtractResponse :=
  { status := st, usage := sampleUsage, message := none,
    processing_options := { chunk := false, quality := .low },
    document := sampleDoc i }

def sampleChunk (st : TaskStatus) (i : String) : ChunkResponse :=
  { status := st, usage := sampleUsage, message := none,
    processing_options := {}, document := sampleDoc i }

example : decodeExtractResponse (okBody "pending" "d1") = .ok (sampleExtract .pending "d1") := rfl

example : decodeChunkResponse (okBody "completed" "d1") = .ok (sampleChunk .completed "d1") := rfl

/-! ## Helper lemmas about the retry loop -/

/-- Outcomes on which the loop retries (when attempts remain): server
errors, and transport timeouts when the operation has the except Timeout
handler. -/
def isRetryable (pol : TimeoutPolicy) : Outcome → Bool
  | .httpStatus c _ _ => decide (500 ≤ c)
  | .timeout =>
    match pol with
    | .retryThenRaise _ => true
    | .wrapGeneric _ => false
    | .raiseImmediately _ => false
  | .exn _ => false

lemma runLoopGo_skip (env : LoopEnv α) (trace : Trace) :
    ∀ (k n idx : Nat) (log : List RequestRecord), k ≤ n →
      (∀ j, j < k → isRetryable env.timeoutPolicy (trace (idx + j)) = true) →
      runLoopGo env trace (n + 1) idx log =
        runLoopGo env trace (n + 1 - k) (idx + k) (log ++ List.replicate k env.req) := by
  intro k
  induction k with
  | zero => intro n idx log _ _; simp
  | succ k ih =>
    intro n idx log hk hr
    have h0 : isRetryable env.timeoutPolicy (trace idx) = true := by
      simpa using hr 0 (by omega)
    obtain ⟨m, rfl⟩ : ∃ m, n = m + 1 := ⟨n - 1, by omega⟩
    have step : runLoopGo env trace (m + 1 + 1) idx log =
        runLoopGo env trace (m + 1) (idx + 1) (log ++ [env.req]) := by
      cases ho : trace idx with
      | httpStatus c txt body =>
        rw [ho] at h0
        simp only [isRetryable, decide_eq_true_eq] at h0
        have h200 : ¬ c = 200 := by omega
        have h429 : ¬ c = 429 := by omega
        simp [runLoopGo, ho, h200, h429, h0]
      | timeout =>
        rw [ho] at h0
        cases hpol : env.timeoutPolicy with
        | retryThenRaise t => simp [runLoopGo, ho, hpol]
        | wrapGeneric m0 => rw [hpol] at h0; simp [isRetryable] at h0
        | raiseImmediately t => rw [hpol] at h0; simp [isRetryable] at h0
      | exn m0 =>
        rw [ho] at h0
        simp [isRetryable] at h0
    rw [step]
    have hr1 : ∀ j, j < k → isRetryable env.timeoutPolicy (trace (idx + 1 + j)) = true := by
      intro j hj
      have := hr (j + 1) (by omega)
      rwa [show idx + (j + 1) = idx + 1 + j from by omega] at this
    have := ih m (idx + 1) (log ++ [env.req]) (by omega) hr1
    rw [this,
      show m + 1 - k = m + 1 + 1 - (k + 1) from by omega,
      show idx + 1 + k = idx + (k + 1) from by omega,
      show (log ++ [env.req]) ++ List.replicate k env.req
          = log ++ List.replicate (k + 1) env.req from by
        simp [List.replicate_succ]]

/-- The loop consumes one trace entry per attempt and logs one copy of its
request per attempt. -/
lemma runLoopGo_shape (env : LoopEnv α) (trace : Trace) :
    ∀ (n idx : Nat) (log : List RequestRecord), ∃ k,
      (runLoopGo env trace n idx log).2.1 = idx + k ∧
      (runLoopGo env trace n idx log).2.2 = log ++ List.replicate k env.req := by
  intro n
  induction n with
  | zero => intro idx log; exact ⟨0, by simp [runLoopGo]⟩
  | succ n ih =>
    intro idx log
    have hone : ∀ (r : Except ApiException α),
        ∃ k, ((r, idx + 1, log ++ [env.req]) : CallResult α).2.1 = idx + k ∧
          ((r, idx + 1, log ++ [env.req]) : CallResult α).2.2
            = log ++ List.replicate k env.req := by
      intro r; exact ⟨1, by simp⟩
    have hrec : ∃ k, (runLoopGo env trace n (idx + 1) (log ++ [env.req])).2.1 = idx + k ∧
        (runLoopGo env trace n (idx + 1) (log ++ [env.req])).2.2
          = log ++ List.replicate k env.req := by
      obtain ⟨k, h1, h2⟩ := ih (idx + 1) (log ++ [env.req])
      exact ⟨k + 1, by omega, by simp [h2, List.replicate_succ]⟩
    cases ho : trace idx with
    | httpStatus c txt body =>
      by_cases h200 : c = 200
      · subst h200
        cases hd : env.decode body with
        | ok r => simpa [runLoopGo, ho, hd] using hone (.ok r)
        | error m => simpa [runLoopGo, ho, hd] using hone (.error (.apiError none m))
      · by_cases h429 : c = 429
        · subst h429
          simpa [runLoopGo, ho, h200] using hone (.error (.rateLimitError (some 429)))
        · by_cases h5 : 500 ≤ c
          · by_cases hn : n = 0
            · subst hn
              simpa [runLoopGo, ho, h200, h429, h5] using
                hone (.error (.apiError (some c) txt))
            · simpa [runLoopGo, ho, h200, h429, h5, hn] using hrec
          · simpa [runLoopGo, ho, h200, h429, h5] using
              hone (.error (.apiError (some c) txt))
    | timeout =>
      cases hpol : env.timeoutPolicy with
      | retryThenRaise t =>
        by_cases hn : n = 0
        · subst hn
          simpa [runLoopGo, ho, hpol] using hone (.error (.timeoutError t))
        · simpa [runLoopGo, ho, hpol, hn] using hrec
      | wrapGeneric m0 =>
        simpa [runLoopGo, ho, hpol] using hone (.error (.apiError none m0))
      | raiseImmediately t =>
        simpa [runLoopGo, ho, hpol] using hone (.error (.timeoutError t))
    | exn m0 =>
      simpa [runLoopGo, ho] using hone (.error (.apiError none m0))

/-- A 200 attempt whose body decodes returns the decoded record at once. -/
lemma runLoopGo_200 (env : LoopEnv α) (trace : Trace) (n idx : Nat)
    (log : List RequestRecord) (txt : String) (body : JVal) (r : α)
    (ho : trace idx = .httpStatus 200 txt body) (hd : env.decode body = .ok r) :
    runLoopGo env trace (n + 1) idx log = (.ok r, idx + 1, log ++ [env.req]) := by
  simp [runLoopGo, ho, hd]

/-- A 200 attempt whose body fails to decode raises a generic ApiError at
once (the pydantic error is swallowed by the blanket except handler). -/
lemma runLoopGo_200_badbody (env : LoopEnv α) (trace : Trace) (n idx : Nat)
    (log : List RequestRecord) (txt : String) (body : JVal) (m : String)
    (ho : trace idx = .httpStatus 200 txt body) (hd : env.decode body = .error m) :
    runLoopGo env trace (n + 1) idx log
      = (.error (.apiError none m), idx + 1, log ++ [env.req]) := by
  simp [runLoopGo, ho, hd]

/-- A 429 attempt raises the rate-limit error at once. -/
lemma runLoopGo_429 (env : LoopEnv α) (trace : Trace) (n idx : Nat)
    (log : List RequestRecord) (txt : String) (body : JVal)
    (ho : trace idx = .httpStatus 429 txt body) :
    runLoopGo env trace (n + 1) idx log
      = (.error (.rateLimitError (some 429)), idx + 1, log ++ [env.req]) := by
  simp [runLoopGo, ho]

/-- A non-HTTP, non-timeout exception raises a generic ApiError at once,
on every attempt. -/
lemma runLoopGo_exn (env : LoopEnv α) (trace : Trace) (n idx : Nat)
    (log : List RequestRecord) (m : String) (ho : trace idx = .exn m) :
    runLoopGo env trace (n + 1) idx log
      = (.error (.apiError none m), idx + 1, log ++ [env.req]) := by
  simp [runLoopGo, ho]

/-- A server error on the last attempt raises ApiError with the status. -/
lemma runLoopGo_5xx_last (env : LoopEnv α) (trace : Trace) (idx : Nat)
    (log : List RequestRecord) (c : Nat) (txt : String) (body : JVal)
    (ho : trace idx = .httpStatus c txt body) (hc : 500 ≤ c) :
    runLoopGo env trace 1 idx log
      = (.error (.apiError (some c) txt), idx + 1, log ++ [env.req]) := by
  have h200 : ¬ c = 200 := by omega
  have h429 : ¬ c = 429 := by omega
  simp [runLoopGo, ho, h200, h429, hc]

/-- A transport timeout on the last attempt of an operation with the
except Timeout handler raises ApiTimeoutError. -/
lemma runLoopGo_timeout_last (env : LoopEnv α) (trace : Trace) (idx : Nat)
    (log : List RequestRecord) (t : Option Int)
    (ho : trace idx = .timeout) (hpol : env.timeoutPolicy = .retryThenRaise t) :
    runLoopGo env trace 1 idx log
      = (.error (.timeoutError t), idx + 1, log ++ [env.req]) := by
  simp [runLoopGo, ho, hpol]

/-- A transport timeout under the wrapGeneric policy (sync chunk) raises a
generic ApiError at once, on every attempt. -/
lemma runLoopGo_timeout_wrap (env : LoopEnv α) (trace : Trace) (n idx : Nat)
    (log : List RequestRecord) (m : String)
    (ho : trace idx = .timeout) (hpol : env.timeoutPolicy = .wrapGeneric m) :
    runLoopGo env trace (n + 1) idx log
      = (.error (.apiError none m), idx + 1, log ++ [env.req]) := by
  simp [runLoopGo, ho, hpol]

/-- A transport timeout under the raiseImmediately policy (async
get_document) raises ApiTimeoutError at once, on every attempt. -/
lemma runLoopGo_timeout_now (env : LoopEnv α) (trace : Trace) (n idx : Nat)
    (log : List RequestRecord) (t : Option Int)
    (ho : trace idx = .timeout) (hpol : env.timeoutPolicy = .raiseImmediately t) :
    runLoopGo env trace (n + 1) idx log
      = (.error (.timeoutError t), idx + 1, log ++ [env.req]) := by
  simp [runLoopGo, ho, hpol]

/-- Kind projection on the possibly-fuel-exhausted results of polling
operations. -/
def optKind (x : Option (Except ApiException α)) : Option (Except ExnKind α) :=
  x.map outcomeKind

/-- Two retry loops with the same decoder agree up to error kind and trace
consumption whenever their timeout policies agree or the trace contains no
transport timeouts. -/
lemma runLoopGo_congr (env1 env2 : LoopEnv α) (trace : Trace)
    (hdec : env1.decode = env2.decode)
    (hpol : env1.timeoutPolicy = env2.timeoutPolicy ∨ ∀ i, trace i ≠ .timeout) :
    ∀ (n idx : Nat) (log1 log2 : List RequestRecord),
      outcomeKind (runLoopGo env1 trace n idx log1).1
          = outcomeKind (runLoopGo env2 trace n idx log2).1 ∧
        (runLoopGo env1 trace n idx log1).2.1 = (runLoopGo env2 trace n idx log2).2.1 := by
  intro n
  induction n with
  | zero => intro idx log1 log2; simp [runLoopGo, outcomeKind, ApiException.kind]
  | succ n ih =>
    intro idx log1 log2
    cases ho : trace idx with
    | httpStatus c txt body =>
      by_cases h200 : c = 200
      · subst h200
        cases hd : env1.decode body with
        | ok r =>
          have hd2 : env2.decode body = .ok r := by rw [← hdec]; exact hd
          simp [runLoopGo, ho, hd, hd2]
        | error m =>
          have hd2 : env2.decode body = .error m := by rw [← hdec]; exact hd
          simp [runLoopGo, ho, hd, hd2, outcomeKind, ApiException.kind]
      · by_cases h429 : c = 429
        · subst h429
          simp [runLoopGo, ho, h200, outcomeKind, ApiException.kind]
        · by_cases h5 : 500 ≤ c
          · by_cases hn : n = 0
            · subst hn
              simp [runLoopGo, ho, h200, h429, h5, outcomeKind, ApiException.kind]
            · simpa [runLoopGo, ho, h200, h429, h5, hn] using
                ih (idx + 1) (log1 ++ [env1.req]) (log2 ++ [env2.req])
          · simp [runLoopGo, ho, h200, h429, h5, outcomeKind, ApiException.kind]
    | timeout =>
      rcases hpol with hpol | hnt
      · cases hp1 : env1.timeoutPolicy with
        | retryThenRaise t =>
          have hp2 : env2.timeoutPolicy = .retryThenRaise t := by rw [← hpol]; exact hp1
          by_cases hn : n = 0
          · subst hn
            simp [runLoopGo, ho, hp1, hp2, outcomeKind, ApiException.kind]
          · simpa [runLoopGo, ho, hp1, hp2, hn] using
              ih (idx + 1) (log1 ++ [env1.req]) (log2 ++ [env2.req])
        | wrapGeneric m0 =>
          have hp2 : env2.timeoutPolicy = .wrapGeneric m0 := by rw [← hpol]; exact hp1
          simp [runLoopGo, ho, hp1, hp2, outcomeKind, ApiException.kind]
        | raiseImmediately t =>
          have hp2 : env2.timeoutPolicy = .raiseImmediately t := by rw [← hpol]; exact hp1
          simp [runLoopGo, ho, hp1, hp2, outcomeKind, ApiException.kind]
      · exact absurd ho (hnt idx)
    | exn m0 =>
      simp [runLoopGo, ho, outcomeKind, ApiException.kind]

/-- One-step unfolding of the wait_for loop. -/
lemma waitForGo_eq (gd : Nat → List RequestRecord → CallResult ExtractResponse)
    (wait p : Int) (fuel : Nat) (r : ExtractResponse) (t : Int) (idx : Nat)
    (log : List RequestRecord) :
    waitForGo gd wait p fuel r t idx log =
      if isFinalStatus r.status then (some (.ok r), idx, log)
      else if 0 ≤ wait ∧ wait < t + p then (some (.ok r), idx, log)
      else
        match fuel with
        | 0 => (none, idx, log)
        | fuel + 1 =>
          match gd idx log with
          | (.ok r1, idx1, log1) => waitForGo gd wait p fuel r1 (t + p) idx1 log1
          | (.error e, idx1, log1) => (some (.error e), idx1, log1) := by
  cases fuel <;> rfl

/-- Two wait_for loops whose get_document runners agree up to error kind
and trace consumption agree up to error kind and trace consumption. -/
lemma waitForGo_congr
    (gd1 gd2 : Nat → List RequestRecord → CallResult ExtractResponse)
    (hgd : ∀ (i : Nat) (l1 l2 : List RequestRecord),
      outcomeKind (gd1 i l1).1 = outcomeKind (gd2 i l2).1 ∧ (gd1 i l1).2.1 = (gd2 i l2).2.1)
    (wait p : Int) :
    ∀ (fuel : Nat) (r : ExtractResponse) (t : Int) (idx : Nat)
      (log1 log2 : List RequestRecord),
      optKind (waitForGo gd1 wait p fuel r t idx log1).1
          = optKind (waitForGo gd2 wait p fuel r t idx log2).1 ∧
        (waitForGo gd1 wait p fuel r t idx log1).2.1
          = (waitForGo gd2 wait p fuel r t idx log2).2.1 := by
  intro fuel
  induction fuel with
  | zero =>
    intro r t idx log1 log2
    rw [waitForGo_eq, waitForGo_eq]
    by_cases hf : isFinalStatus r.status
    · simp [hf]
    · by_cases hb : 0 ≤ wait ∧ wait < t + p
      · simp [hf, hb]
      · simp [hf, hb]
  | succ fuel ih =>
    intro r t idx log1 log2
    rw [waitForGo_eq gd1, waitForGo_eq gd2]
    by_cases hf : isFinalStatus r.status
    · simp [hf]
    · by_cases hb : 0 ≤ wait ∧ wait < t + p
      · simp [hf, hb]
      · have hk := hgd idx log1 log2
        rcases hq1 : gd1 idx log1 with ⟨res1, i1, l1x⟩
        rcases hq2 : gd2 idx log2 with ⟨res2, i2, l2x⟩
        rw [hq1, hq2] at hk
        simp only at hk
        obtain ⟨hkr, hki⟩ := hk
        cases res1 with
        | ok r1 =>
          cases res2 with
          | ok r2 =>
            have : r1 = r2 := by simpa [outcomeKind] using hkr
            subst this
            subst hki
            simpa [hf, hb, hq1, hq2] using ih r1 (t + p) i1 l1x l2x
          | error e2 => simp [outcomeKind] at hkr
        | error e1 =>
          cases res2 with
          | ok r2 => simp [outcomeKind] at hkr
          | error e2 =>
            have : e1.kind = e2.kind := by simpa [outcomeKind] using hkr
            simp [hf, hb, hq1, hq2, optKind, outcomeKind, this, hki]

/-- The fuelled wait_for loop, fed by successful non-terminal fetches and
given a positive polling interval and enough fuel, terminates by deadline
and hands back one of the fetched responses unchanged. -/
lemma waitForGo_nonterminal
    (gd : Nat → List RequestRecord → CallResult ExtractResponse)
    (resps : Nat → ExtractResponse) (gdReq : RequestRecord)
    (hgd : ∀ (i : Nat) (l : List RequestRecord), gd i l = (.ok (resps i), i + 1, l ++ [gdReq]))
    (hnt : ∀ i, isFinalStatus (resps i).status = false)
    (wait p : Int) (hw : 0 ≤ wait) :
    ∀ (fuel : Nat) (r : ExtractResponse) (t : Int) (idx : Nat)
      (log : List RequestRecord),
      isFinalStatus r.status = false →
      wait - t < (fuel + 1) * p →
      (waitForGo gd wait p fuel r t idx log).1 = some (.ok r) ∨
        ∃ j, (waitForGo gd wait p fuel r t idx log).1 = some (.ok (resps j)) := by
  intro fuel
  induction fuel with
  | zero =>
    intro r t idx log hr hbound
    have hb : 0 ≤ wait ∧ wait < t + p := by
      refine ⟨hw, ?_⟩
      have hb1 : wait - t < p := by
        have := hbound
        push_cast at this
        linarith
      omega
    left
    rw [waitForGo_eq]
    simp [hr, hb]
  | succ fuel ih =>
    intro r t idx log hr hbound
    by_cases hb : 0 ≤ wait ∧ wait < t + p
    · left
      rw [waitForGo_eq]
      simp [hr, hb]
    · have hrec := ih (resps idx) (t + p) (idx + 1) (log ++ [gdReq]) (hnt idx)
        (by
          push_cast at hbound ⊢
          ring_nf at hbound ⊢
          linarith)
      have hstep : waitForGo gd wait p (fuel + 1) r t idx log
          = waitForGo gd wait p fuel (resps idx) (t + p) (idx + 1) (log ++ [gdReq]) := by
        rw [waitForGo_eq]
        simp [hr, hb, hgd idx log]
      rw [hstep]
      rcases hrec with h | ⟨j, hj⟩
      · right; exact ⟨idx, h⟩
      · right; exact ⟨j, hj⟩

/-! ## Prefix lemmas: behaviour of a call whose first attempts all retry -/

/-- Server-error outcomes (status at least 500). -/
def is5xx : Outcome → Bool
  | .httpStatus c _ _ => decide (500 ≤ c)
  | _ => false

lemma isRetryable_of_5xx (pol : TimeoutPolicy) (o : Outcome) (h : is5xx o = true) :
    isRetryable pol o = true := by
  cases o with
  | httpStatus c txt body => simpa [is5xx, isRetryable] using h
  | timeout => simp [is5xx] at h
  | exn m => simp [is5xx] at h

/-- After k retried attempts, a 200 attempt with a well-formed body makes
the call return the decoded record, having consumed exactly k + 1 attempts. -/
lemma runLoop_skip_200 (env : LoopEnv α) (trace : Trace) (k N : Nat)
    (txt : String) (body : JVal) (r : α) (hk : k < N)
    (hpre : ∀ j, j < k → isRetryable env.timeoutPolicy (trace j) = true)
    (h200 : trace k = .httpStatus 200 txt body) (hd : env.decode body = .ok r) :
    runLoop env trace N 0 [] = (.ok r, k + 1, List.replicate (k + 1) env.req) := by
  obtain ⟨m, rfl⟩ : ∃ m, N = m + 1 := ⟨N - 1, by omega⟩
  rw [runLoop, runLoopGo_skip env trace k m 0 [] (by omega)
    (fun j hj => by simpa using hpre j hj)]
  obtain ⟨m2, hm2⟩ : ∃ m2, m + 1 - k = m2 + 1 := ⟨m - k, by omega⟩
  simp only [Nat.zero_add, List.nil_append]
  rw [hm2, runLoopGo_200 env trace m2 k _ txt body r h200 hd]
  simp [← List.replicate_succ']

/-- After k retried attempts, a 429 attempt raises the rate-limit error,
having consumed exactly k + 1 attempts. -/
lemma runLoop_skip_429 (env : LoopEnv α) (trace : Trace) (k N : Nat)
    (txt : String) (body : JVal) (hk : k < N)
    (hpre : ∀ j, j < k → isRetryable env.timeoutPolicy (trace j) = true)
    (h429 : trace k = .httpStatus 429 txt body) :
    runLoop env trace N 0 []
      = (.error (.rateLimitError (some 429)), k + 1, List.replicate (k + 1) env.req) := by
  obtain ⟨m, rfl⟩ : ∃ m, N = m + 1 := ⟨N - 1, by omega⟩
  rw [runLoop, runLoopGo_skip env trace k m 0 [] (by omega)
    (fun j hj => by simpa using hpre j hj)]
  obtain ⟨m2, hm2⟩ : ∃ m2, m + 1 - k = m2 + 1 := ⟨m - k, by omega⟩
  simp only [Nat.zero_add, List.nil_append]
  rw [hm2, runLoopGo_429 env trace m2 k _ txt body h429]
  simp [← List.replicate_succ']

/-- After k retried attempts, an arbitrary non-HTTP, non-timeout exception
raises a generic ApiError, having consumed exactly k + 1 attempts. -/
lemma runLoop_skip_exn (env : LoopEnv α) (trace : Trace) (k N : Nat)
    (m : String) (hk : k < N)
    (hpre : ∀ j, j < k → isRetryable env.timeoutPolicy (trace j) = true)
    (hexn : trace k = .exn m) :
    runLoop env trace N 0 []
      = (.error (.apiError none m), k + 1, List.replicate (k + 1) env.req) := by
  obtain ⟨m1, rfl⟩ : ∃ m1, N = m1 + 1 := ⟨N - 1, by omega⟩
  rw [runLoop, runLoopGo_skip env trace k m1 0 [] (by omega)
    (fun j hj => by simpa using hpre j hj)]
  obtain ⟨m2, hm2⟩ : ∃ m2, m1 + 1 - k = m2 + 1 := ⟨m1 - k, by omega⟩
  simp only [Nat.zero_add, List.nil_append]
  rw [hm2, runLoopGo_exn env trace m2 k _ m hexn]
  simp [← List.replicate_succ']

/-- After N - 1 retried attempts, a transport timeout on the last attempt
of an operation with the except Timeout handler raises ApiTimeoutError. -/
lemma runLoop_skip_timeout_last (env : LoopEnv α) (trace : Trace) (N : Nat)
    (t : Option Int) (hN : 1 ≤ N) (hpol : env.timeoutPolicy = .retryThenRaise t)
    (hpre : ∀ j, j < N - 1 → isRetryable env.timeoutPolicy (trace j) = true)
    (hlast : trace (N - 1) = .timeout) :
    runLoop env trace N 0 []
      = (.error (.timeoutError t), N, List.replicate N env.req) := by
  obtain ⟨m, rfl⟩ : ∃ m, N = m + 1 := ⟨N - 1, by omega⟩
  rw [runLoop, runLoopGo_skip env trace m m 0 [] (by omega)
    (fun j hj => by simpa using hpre j (by omega))]
  simp only [Nat.zero_add, List.nil_append, Nat.add_sub_cancel_left,
    Nat.add_sub_cancel]
  have hl : trace m = .timeout := by simpa using hlast
  rw [runLoopGo_timeout_last env trace m _ t hl hpol]
  simp [← List.replicate_succ']

/-- After N - 1 retried attempts, a server error on the last attempt
raises ApiError carrying the status code and body text. -/
lemma runLoop_skip_5xx_last (env : LoopEnv α) (trace : Trace) (N : Nat)
    (c : Nat) (txt : String) (body : JVal) (hN : 1 ≤ N) (hc : 500 ≤ c)
    (hpre : ∀ j, j < N - 1 → isRetryable env.timeoutPolicy (trace j) = true)
    (hlast : trace (N - 1) = .httpStatus c txt body) :
    runLoop env trace N 0 []
      = (.error (.apiError (some c) txt), N, List.replicate N env.req) := by
  obtain ⟨m, rfl⟩ : ∃ m, N = m + 1 := ⟨N - 1, by omega⟩
  rw [runLoop, runLoopGo_skip env trace m m 0 [] (by omega)
    (fun j hj => by simpa using hpre j (by omega))]
  simp only [Nat.zero_add, List.nil_append]
  have hl : trace m = .httpStatus c txt body := by simpa using hlast
  rw [show m + 1 - m = 1 from by omega, runLoopGo_5xx_last env trace m _ c txt body hl hc]
  simp [← List.replicate_succ']

/-- The extract tails forward a failed submission unchanged. -/
lemma syncExtractTail_error (trace : Trace) (wait p : Int) (fuel : Nat)
    (e : ApiException) (i : Nat) (l : List RequestRecord) :
    syncExtractTail trace wait p fuel (.error e, i, l) = (some (.error e), i, l) := rfl

lemma asyncExtractFileTail_error (trace : Trace) (wait p : Int) (fuel : Nat)
    (e : ApiException) (i : Nat) (l : List RequestRecord) :
    asyncExtractFileTail trace wait p fuel (.error e, i, l) = (some (.error e), i, l) := rfl

lemma asyncExtractUrlTail_error (trace : Trace) (wait p : Int) (fuel : Nat)
    (e : ApiException) (i : Nat) (l : List RequestRecord) :
    asyncExtractUrlTail trace wait p fuel (.error e, i, l) = (some (.error e), i, l) := rfl

/-- The extract tails return a wait = 0 submission unchanged. -/
lemma syncExtractTail_wait0 (trace : Trace) (p : Int) (fuel : Nat)
    (x : CallResult ExtractResponse) :
    syncExtractTail trace 0 p fuel x = (some x.1, x.2) := by
  rcases x with ⟨res, i, l⟩
  cases res with
  | ok r => simp [syncExtractTail]
  | error e => simp [syncExtractTail]

lemma asyncExtractFileTail_wait0 (trace : Trace) (p : Int) (fuel : Nat)
    (x : CallResult ExtractResponse) :
    asyncExtractFileTail trace 0 p fuel x = (some x.1, x.2) := by
  rcases x with ⟨res, i, l⟩
  cases res with
  | ok r => simp [asyncExtractFileTail]
  | error e => simp [asyncExtractFileTail]

lemma asyncExtractUrlTail_wait0 (trace : Trace) (p : Int) (fuel : Nat)
    (x : CallResult ExtractResponse) :
    asyncExtractUrlTail trace 0 p fuel x = (some x.1, x.2) := by
  rcases x with ⟨res, i, l⟩
  cases res with
  | ok r => simp [asyncExtractUrlTail]
  | error e => simp [asyncExtractUrlTail]

/-! ## Claim theorems -/

/-- C3: for every operation of both clients and every attempt number k
below the retry budget, an HTTP 429 outcome on attempt k + 1 (after k
retried server errors) makes the call raise ApiRateLimitError
immediately: exactly k + 1 trace entries are consumed, so no further HTTP
attempt follows, whatever retry budget remains. -/
theorem claim_C3 (trace : Trace) (k N : Nat)
    (timeout wait pollingInterval wtbp : Int) (fuel : Nat) (url : String)
    (filePath fileName : Option String) (quality : Option ProcessingQuality)
    (modelArg : Option String) (txt : String) (body : JVal)
    (hk : k < N)
    (hpre : ∀ j, j < k → is5xx (trace j) = true)
    (h429 : trace k = .httpStatus 429 txt body) :
    ((syncChunk trace N timeout 0 []).1 = .error (.rateLimitError (some 429))
      ∧ (syncChunk trace N timeout 0 []).2.1 = k + 1)
    ∧ ((asyncChunk trace N timeout 0 []).1 = .error (.rateLimitError (some 429))
      ∧ (asyncChunk trace N timeout 0 []).2.1 = k + 1)
    ∧ ((syncGetDocument trace N timeout 0 []).1 = .error (.rateLimitError (some 429))
      ∧ (syncGetDocument trace N timeout 0 []).2.1 = k + 1)
    ∧ ((asyncGetDocument trace N timeout 0 []).1 = .error (.rateLimitError (some 429))
      ∧ (asyncGetDocument trace N timeout 0 []).2.1 = k + 1)
    ∧ ((syncEmbedding trace N timeout 0 []).1 = .error (.rateLimitError (some 429))
      ∧ (syncEmbedding trace N timeout 0 []).2.1 = k + 1)
    ∧ ((asyncEmbedding trace N timeout 0 []).1 = .error (.rateLimitError (some 429))
      ∧ (asyncEmbedding trace N timeout 0 []).2.1 = k + 1)
    ∧ ((syncExtractFile trace filePath fileName quality modelArg wait pollingInterval
          N wtbp fuel 0 []).1 = some (.error (.rateLimitError (some 429)))
      ∧ (syncExtractFile trace filePath fileName quality modelArg wait pollingInterval
          N wtbp fuel 0 []).2.1 = k + 1)
    ∧ ((syncExtractUrl trace url quality modelArg wait pollingInterval
          N wtbp fuel 0 []).1 = some (.error (.rateLimitError (some 429)))
      ∧ (syncExtractUrl trace url quality modelArg wait pollingInterval
          N wtbp fuel 0 []).2.1 = k + 1)
    ∧ ((asyncExtractFile trace filePath fileName quality modelArg wait pollingInterval
          N wtbp fuel 0 []).1 = some (.error (.rateLimitError (some 429)))
      ∧ (asyncExtractFile trace filePath fileName quality modelArg wait pollingInterval
          N wtbp fuel 0 []).2.1 = k + 1)
    ∧ ((asyncExtractUrl trace url quality modelArg wait pollingInterval
          N wtbp fuel 0 []).1 = some (.error (.rateLimitError (some 429)))
      ∧ (asyncExtractUrl trace url quality modelArg wait pollingInterval
          N wtbp fuel 0 []).2.1 = k + 1) := by
  have hgen : ∀ {β : Type} (env : LoopEnv β),
      runLoop env trace N 0 []
        = (.error (.rateLimitError (some 429)), k + 1, List.replicate (k + 1) env.req) :=
    fun env => runLoop_skip_429 env trace k N txt body hk
      (fun j hj => isRetryable_of_5xx _ _ (hpre j hj)) h429
  refine ⟨⟨?_, ?_⟩, ⟨?_, ?_⟩, ⟨?_, ?_⟩, ⟨?_, ?_⟩, ⟨?_, ?_⟩, ⟨?_, ?_⟩,
    ⟨?_, ?_⟩, ⟨?_, ?_⟩, ⟨?_, ?_⟩, ⟨?_, ?_⟩⟩
  all_goals
    simp only [syncChunk, asyncChunk, syncGetDocument, asyncGetDocument,
      syncEmbedding, asyncEmbedding, syncExtractFile, syncExtractUrl,
      asyncExtractFile, asyncExtractUrl, hgen, syncExtractTail_error,
      asyncExtractFileTail_error, asyncExtractUrlTail_error]

/-- A fixed trace for witnesses: one server error, then rate limiting. -/
def trace429 : Trace := fun i =>
  if i = 0 then .httpStatus 500 ("server error") .null
  else .httpStatus 429 ("rate limited") .null

/-- Witness for C3: with budget 3, a 500 then a 429 stops the synchronous
chunk call at the second attempt with the rate-limit error. -/
theorem claim_C3_witness :
    (syncChunk trace429 3 60 0 []).1 = .error (.rateLimitError (some 429))
      ∧ (syncChunk trace429 3 60 0 []).2.1 = 1 + 1 :=
  (claim_C3 trace429 1 3 60 30 5 10 40 ("u") none none none none
    ("rate limited") .null (by omega)
    (fun j hj => by
      have hj0 : j = 0 := by omega
      subst hj0; rfl)
    rfl).1

/-- C4: every extraction call with wait = 0 hands back the submission
phase result unchanged (wrapped in some), consuming exactly the
submission attempts; its request log consists of submission requests
only, so the get_document status-fetch endpoint is never hit, whatever
status the submission response carries. -/
theorem claim_C4 (trace : Trace) (pollingInterval wtbp : Int)
    (fuel N : Nat) (url : String)
    (filePath fileName : Option String) (quality : Option ProcessingQuality)
    (modelArg : Option String) (hN : 1 ≤ N) :
    (syncExtractFile trace filePath fileName quality modelArg 0 pollingInterval
        N wtbp fuel 0 []
      = (some (runLoop (syncExtractFileEnv filePath fileName quality modelArg
            0 pollingInterval wtbp N) trace N 0 []).1,
         (runLoop (syncExtractFileEnv filePath fileName quality modelArg
            0 pollingInterval wtbp N) trace N 0 []).2)
      ∧ ∀ rec ∈ (syncExtractFile trace filePath fileName quality modelArg 0
          pollingInterval N wtbp fuel 0 []).2.2, rec.endpoint ≠ .getDocumentEp)
    ∧ (syncExtractUrl trace url quality modelArg 0 pollingInterval N wtbp fuel 0 []
      = (some (runLoop (syncExtractUrlEnv url quality modelArg
            0 pollingInterval wtbp N) trace N 0 []).1,
         (runLoop (syncExtractUrlEnv url quality modelArg
            0 pollingInterval wtbp N) trace N 0 []).2)
      ∧ ∀ rec ∈ (syncExtractUrl trace url quality modelArg 0 pollingInterval
          N wtbp fuel 0 []).2.2, rec.endpoint ≠ .getDocumentEp)
    ∧ (asyncExtractFile trace filePath fileName quality modelArg 0 pollingInterval
        N wtbp fuel 0 []
      = (some (runLoop (asyncExtractFileEnv filePath fileName quality modelArg
            0 pollingInterval wtbp) trace N 0 []).1,
         (runLoop (asyncExtractFileEnv filePath fileName quality modelArg
            0 pollingInterval wtbp) trace N 0 []).2)
      ∧ ∀ rec ∈ (asyncExtractFile trace filePath fileName quality modelArg 0
          pollingInterval N wtbp fuel 0 []).2.2, rec.endpoint ≠ .getDocumentEp)
    ∧ (asyncExtractUrl trace url quality modelArg 0 pollingInterval N wtbp fuel 0 []
      = (some (runLoop (asyncExtractUrlEnv url quality modelArg
            0 pollingInterval wtbp) trace N 0 []).1,
         (runLoop (asyncExtractUrlEnv url quality modelArg
            0 pollingInterval wtbp) trace N 0 []).2)
      ∧ ∀ rec ∈ (asyncExtractUrl trace url quality modelArg 0 pollingInterval
          N wtbp fuel 0 []).2.2, rec.endpoint ≠ .getDocumentEp) := by
  have hnog : ∀ (env : LoopEnv ExtractResponse) (ep : Endpoint),
      env.req.endpoint = ep → ep ≠ .getDocumentEp →
      ∀ rec ∈ (runLoop env trace N 0 []).2.2, rec.endpoint ≠ .getDocumentEp := by
    intro env ep hep hne rec hrec
    obtain ⟨kc, hk1, hk2⟩ := runLoopGo_shape env trace N 0 []
    rw [runLoop] at *
    rw [hk2] at hrec
    simp only [List.nil_append] at hrec
    have := List.eq_of_mem_replicate hrec
    rw [this, hep]
    exact hne
  refine ⟨⟨?_, ?_⟩, ⟨?_, ?_⟩, ⟨?_, ?_⟩, ⟨?_, ?_⟩⟩
  · rw [syncExtractFile, syncExtractTail_wait0]
  · rw [syncExtractFile, syncExtractTail_wait0]
    exact hnog _ .extractFileEp rfl (by simp)
  · rw [syncExtractUrl, syncExtractTail_wait0]
  · rw [syncExtractUrl, syncExtractTail_wait0]
    exact hnog _ .extractUrlEp rfl (by simp)
  · rw [asyncExtractFile, asyncExtractFileTail_wait0]
  · rw [asyncExtractFile, asyncExtractFileTail_wait0]
    exact hnog _ .extractFileEp rfl (by simp)
  · rw [asyncExtractUrl, asyncExtractUrlTail_wait0]
  · rw [asyncExtractUrl, asyncExtractUrlTail_wait0]
    exact hnog _ .extractUrlEp rfl (by simp)

/-- A fixed trace for witnesses: a single 200 with a pending body. -/
def tracePending : Trace := fun _ => .httpStatus 200 ("") (okBody "pending" "d1")

/-- Witness for C4: with wait = 0 the synchronous extract_url call returns
the pending submission response itself and hits no status-fetch endpoint. -/
theorem claim_C4_witness :
    syncExtractUrl tracePending ("http.pdf") none none 0 5 3 10 40 0 []
      = (some (runLoop (syncExtractUrlEnv ("http.pdf") none none 0 5 10 3)
            tracePending 3 0 []).1,
         (runLoop (syncExtractUrlEnv ("http.pdf") none none 0 5 10 3)
            tracePending 3 0 []).2) :=
  ((claim_C4 tracePending 5 10 40 3 ("http.pdf") none none none none
    (by omega)).2.1).1

/-- C8: a wait_for poll loop (of either client) that only ever fetches
successful non-terminal responses exhausts its deadline and returns one of
the fetched responses unchanged, with its non-terminal status, raising no
error.  The fetches are given as a stream of 200 outcomes whose bodies
decode to the non-terminal records resps. -/
theorem claim_C8 (trace : Trace) (texts : Nat → String) (bodies : Nat → JVal)
    (resps : Nat → ExtractResponse) (wait p : Int) (fuel idx : Nat)
    (log : List RequestRecord)
    (htr : ∀ i, trace i = .httpStatus 200 (texts i) (bodies i))
    (hdec : ∀ i, decodeExtractResponse (bodies i) = .ok (resps i))
    (hnt : ∀ i, isFinalStatus (resps i).status = false)
    (hw : 0 ≤ wait) (hp : 1 ≤ p) (hfuel : wait < (fuel : Int) + 1) :
    (∃ j, (syncWaitFor trace wait p fuel idx log).1 = some (.ok (resps j))
        ∧ isFinalStatus (resps j).status = false)
    ∧ (∃ j, (asyncWaitFor trace wait p fuel idx log).1 = some (.ok (resps j))
        ∧ isFinalStatus (resps j).status = false) := by
  have hbound : wait - 0 < ((fuel : Int) + 1) * p := by
    have h1 : (fuel : Int) + 1 ≤ ((fuel : Int) + 1) * p :=
      le_mul_of_one_le_right (by positivity) hp
    linarith
  have hboth : ∀ (gd : Nat → List RequestRecord → CallResult ExtractResponse)
      (gdReq : RequestRecord),
      (∀ (i : Nat) (l : List RequestRecord), gd i l = (.ok (resps i), i + 1, l ++ [gdReq])) →
      ∃ j, (waitForWith gd wait p fuel idx log).1 = some (.ok (resps j))
        ∧ isFinalStatus (resps j).status = false := by
    intro gd gdReq hgd
    have hrec := waitForGo_nonterminal gd resps gdReq hgd hnt wait p hw fuel
      (resps idx) 0 (idx + 1) (log ++ [gdReq]) (hnt idx) hbound
    have hstep : waitForWith gd wait p fuel idx log
        = waitForGo gd wait p fuel (resps idx) 0 (idx + 1) (log ++ [gdReq]) := by
      rw [waitForWith, hgd idx log]
    rw [hstep]
    rcases hrec with h | ⟨j, hj⟩
    · exact ⟨idx, h, hnt idx⟩
    · exact ⟨j, hj, hnt j⟩
  constructor
  · exact hboth (fun i l => syncGetDocument trace 3 30 i l) _
      (fun i l => runLoopGo_200 (syncGetDocumentEnv 30) trace 2 i l
        (texts i) (bodies i) (resps i) (htr i) (hdec i))
  · exact hboth (fun i l => asyncGetDocument trace 3 30 i l) _
      (fun i l => runLoopGo_200 (asyncGetDocumentEnv 30) trace 2 i l
        (texts i) (bodies i) (resps i) (htr i) (hdec i))

/-- Witness for C8: a server that forever answers pending with wait 5 and
polling interval 1 makes the synchronous poll loop return a pending
response without raising. -/
theorem claim_C8_witness :
    ∃ j : Nat, (syncWaitFor tracePending 5 1 5 0 []).1
        = some (.ok (sampleExtract .pending "d1"))
      ∧ isFinalStatus (sampleExtract .pending "d1").status = false := by
  have h := (claim_C8 tracePending (fun _ => "") (fun _ => okBody "pending" "d1")
    (fun _ => sampleExtract .pending "d1") 5 1 5 0 []
    (fun i => rfl) (fun i => rfl) (fun i => rfl)
    (by omega) (by omega) (by norm_num)).1
  exact h

/-- C1 (amended): for chunk, get_document and embedding of both clients,
N - 1 server-error attempts followed by a 200 attempt with a well-formed
body make the call return the decoded success response with no error; the
four extraction operations likewise return the decoded submission
response when wait = 0 (with wait nonzero and polling enabled, a
non-terminal submission response sends the call into polling, whose later
attempts decide the outcome). -/
theorem claim_C1_amended (trace : Trace) (N : Nat)
    (timeout pollingInterval wtbp : Int) (fuel : Nat) (url : String)
    (filePath fileName : Option String) (quality : Option ProcessingQuality)
    (modelArg : Option String) (txt : String) (body : JVal)
    (rc : ChunkResponse) (re : ExtractResponse) (remb : EmbeddingResponse)
    (hN : 1 ≤ N)
    (hpre : ∀ j, j < N - 1 → is5xx (trace j) = true)
    (h200 : trace (N - 1) = .httpStatus 200 txt body)
    (hdc : decodeChunkResponse body = .ok rc)
    (hde : decodeExtractResponse body = .ok re)
    (hdm : decodeEmbeddingResponse body = .ok remb) :
    (syncChunk trace N timeout 0 []).1 = .ok rc
    ∧ (asyncChunk trace N timeout 0 []).1 = .ok rc
    ∧ (syncGetDocument trace N timeout 0 []).1 = .ok re
    ∧ (asyncGetDocument trace N timeout 0 []).1 = .ok re
    ∧ (syncEmbedding trace N timeout 0 []).1 = .ok remb
    ∧ (asyncEmbedding trace N timeout 0 []).1 = .ok remb
    ∧ (syncExtractFile trace filePath fileName quality modelArg 0 pollingInterval
        N wtbp fuel 0 []).1 = some (.ok re)
    ∧ (syncExtractUrl trace url quality modelArg 0 pollingInterval
        N wtbp fuel 0 []).1 = some (.ok re)
    ∧ (asyncExtractFile trace filePath fileName quality modelArg 0 pollingInterval
        N wtbp fuel 0 []).1 = some (.ok re)
    ∧ (asyncExtractUrl trace url quality modelArg 0 pollingInterval
        N wtbp fuel 0 []).1 = some (.ok re) := by
  have hgen : ∀ {β : Type} (env : LoopEnv β) (r : β), env.decode body = .ok r →
      runLoop env trace N 0 []
        = (.ok r, (N - 1) + 1, List.replicate ((N - 1) + 1) env.req) :=
    fun env r hd => runLoop_skip_200 env trace (N - 1) N txt body r (by omega)
      (fun j hj => isRetryable_of_5xx _ _ (hpre j hj)) h200 hd
  refine ⟨?_, ?_, ?_, ?_, ?_, ?_, ?_, ?_, ?_, ?_⟩
  · simp only [syncChunk, hgen (syncChunkEnv timeout N) rc hdc]
  · simp only [asyncChunk, hgen (asyncChunkEnv timeout) rc hdc]
  · simp only [syncGetDocument, hgen (syncGetDocumentEnv timeout) re hde]
  · simp only [asyncGetDocument, hgen (asyncGetDocumentEnv timeout) re hde]
  · simp only [syncEmbedding, hgen (syncEmbeddingEnv timeout) remb hdm]
  · simp only [asyncEmbedding, hgen (asyncEmbeddingEnv timeout) remb hdm]
  · rw [syncExtractFile, syncExtractTail_wait0,
      hgen (syncExtractFileEnv filePath fileName quality modelArg
        0 pollingInterval wtbp N) re hde]
  · rw [syncExtractUrl, syncExtractTail_wait0,
      hgen (syncExtractUrlEnv url quality modelArg 0 pollingInterval wtbp N) re hde]
  · rw [asyncExtractFile, asyncExtractFileTail_wait0,
      hgen (asyncExtractFileEnv filePath fileName quality modelArg
        0 pollingInterval wtbp) re hde]
  · rw [asyncExtractUrl, asyncExtractUrlTail_wait0,
      hgen (asyncExtractUrlEnv url quality modelArg 0 pollingInterval wtbp) re hde]

/-- The embedding record decoded from okBody. -/
def sampleEmbedding (st i : String) : EmbeddingResponse :=
  { fields := [("status", .str st), ("usage", .obj []),
      ("processing_options", .obj [("chunk", .jbool false), ("quality", .str "low")]),
      ("document", .obj [("id", .str i), ("content", .str ""), ("source", .str ""),
        ("source_type", .str "application/pdf"), ("num_chunks", .num 0)])] }

/-- A fixed trace for witnesses: two server errors then a completed 200. -/
def trace500x2 : Trace := fun i =>
  if i < 2 then .httpStatus 500 ("server error") .null
  else .httpStatus 200 ("") (okBody "completed" "d1")

/-- Witness for the amended C1: budget 3, two 500s then a success, the
synchronous chunk call returns the decoded record. -/
theorem claim_C1_witness :
    (syncChunk trace500x2 3 60 0 []).1 = .ok (sampleChunk .completed "d1") :=
  (claim_C1_amended trace500x2 3 60 5 10 40 ("u") none none none none
    ("") (okBody "completed" "d1") (sampleChunk .completed "d1")
    (sampleExtract .completed "d1") (sampleEmbedding "completed" "d1")
    (by omega)
    (fun j hj => by
      have hj2 : j < 2 := by omega
      simp [trace500x2, hj2, is5xx])
    rfl rfl rfl rfl).1

/-- A fixed trace for the C1 counterexample: a 200 pending submission
response, then nothing but server errors. -/
def traceC1 : Trace := fun i =>
  if i = 0 then .httpStatus 200 ("") (okBody "pending" "d1")
  else .httpStatus 500 ("server error") .null

/-- C1 counterexample: the synchronous extract_url call with retry budget
N = 1 whose single (hence N-th) attempt returns 200 with a well-formed
pending body - the premise of the claim - does not return the decoded
response and raises: wait = 30 with polling interval 5 sends it into
polling, whose get_document fetches hit server errors, so the call raises
a generic ApiError instead. -/
theorem claim_C1_counterexample :
    traceC1 0 = .httpStatus 200 ("") (okBody "pending" "d1")
    ∧ decodeExtractResponse (okBody "pending" "d1") = .ok (sampleExtract .pending "d1")
    ∧ (syncExtractUrl traceC1 ("u.pdf") none none 30 5 1 10 40 0 []).1
        = some (.error (.apiError (some 500) ("server error")))
    ∧ some (Except.error (ApiException.apiError (some 500) ("server error")))
      ≠ some (Except.ok (sampleExtract .pending "d1")) := by
  refine ⟨rfl, rfl, rfl, by simp⟩

/-- C7 (amended): for every operation of both clients, an exception on an
attempt that is neither an HTTP-status outcome nor a rate-limit or
timeout error (connection reset, decode failure, ...) is wrapped and
raised as a generic ApiError immediately, on every attempt - it is never
retried, however much retry budget remains.  (Attempt k + 1 is reached
after k retried server errors; exactly k + 1 trace entries are then
consumed.) -/
theorem claim_C7_amended (trace : Trace) (k N : Nat)
    (timeout wait pollingInterval wtbp : Int) (fuel : Nat) (url : String)
    (filePath fileName : Option String) (quality : Option ProcessingQuality)
    (modelArg : Option String) (m : String)
    (hk : k < N)
    (hpre : ∀ j, j < k → is5xx (trace j) = true)
    (hexn : trace k = .exn m) :
    ((syncChunk trace N timeout 0 []).1 = .error (.apiError none m)
      ∧ (syncChunk trace N timeout 0 []).2.1 = k + 1)
    ∧ ((asyncChunk trace N timeout 0 []).1 = .error (.apiError none m)
      ∧ (asyncChunk trace N timeout 0 []).2.1 = k + 1)
    ∧ ((syncGetDocument trace N timeout 0 []).1 = .error (.apiError none m)
      ∧ (syncGetDocument trace N timeout 0 []).2.1 = k + 1)
    ∧ ((asyncGetDocument trace N timeout 0 []).1 = .error (.apiError none m)
      ∧ (asyncGetDocument trace N timeout 0 []).2.1 = k + 1)
    ∧ ((syncEmbedding trace N timeout 0 []).1 = .error (.apiError none m)
      ∧ (syncEmbedding trace N timeout 0 []).2.1 = k + 1)
    ∧ ((asyncEmbedding trace N timeout 0 []).1 = .error (.apiError none m)
      ∧ (asyncEmbedding trace N timeout 0 []).2.1 = k + 1)
    ∧ ((syncExtractFile trace filePath fileName quality modelArg wait pollingInterval
          N wtbp fuel 0 []).1 = some (.error (.apiError none m))
      ∧ (syncExtractFile trace filePath fileName quality modelArg wait pollingInterval
          N wtbp fuel 0 []).2.1 = k + 1)
    ∧ ((syncExtractUrl trace url quality modelArg wait pollingInterval
          N wtbp fuel 0 []).1 = some (.error (.apiError none m))
      ∧ (syncExtractUrl trace url quality modelArg wait pollingInterval
          N wtbp fuel 0 []).2.1 = k + 1)
    ∧ ((asyncExtractFile trace filePath fileName quality modelArg wait pollingInterval
          N wtbp fuel 0 []).1 = some (.error (.apiError none m))
      ∧ (asyncExtractFile trace filePath fileName quality modelArg wait pollingInterval
          N wtbp fuel 0 []).2.1 = k + 1)
    ∧ ((asyncExtractUrl trace url quality modelArg wait pollingInterval
          N wtbp fuel 0 []).1 = some (.error (.apiError none m))
      ∧ (asyncExtractUrl trace url quality modelArg wait pollingInterval
          N wtbp fuel 0 []).2.1 = k + 1) := by
  have hgen : ∀ {β : Type} (env : LoopEnv β),
      runLoop env trace N 0 []
        = (.error (.apiError none m), k + 1, List.replicate (k + 1) env.req) :=
    fun env => runLoop_skip_exn env trace k N m hk
      (fun j hj => isRetryable_of_5xx _ _ (hpre j hj)) hexn
  refine ⟨⟨?_, ?_⟩, ⟨?_, ?_⟩, ⟨?_, ?_⟩, ⟨?_, ?_⟩, ⟨?_, ?_⟩, ⟨?_, ?_⟩,
    ⟨?_, ?_⟩, ⟨?_, ?_⟩, ⟨?_, ?_⟩, ⟨?_, ?_⟩⟩
  all_goals
    simp only [syncChunk, asyncChunk, syncGetDocument, asyncGetDocument,
      syncEmbedding, asyncEmbedding, syncExtractFile, syncExtractUrl,
      asyncExtractFile, asyncExtractUrl, hgen, syncExtractTail_error,
      asyncExtractFileTail_error, asyncExtractUrlTail_error]

/-- A fixed trace: a connection reset, then a perfectly good success. -/
def traceExn : Trace := fun i =>
  if i = 0 then .exn ("connection reset by peer")
  else .httpStatus 200 ("") (okBody "completed" "d1")

/-- Witness for the amended C7: the synchronous chunk call wraps a
first-attempt connection reset as ApiError after exactly one attempt. -/
theorem claim_C7_witness :
    (syncChunk traceExn 3 60 0 []).1
        = .error (.apiError none ("connection reset by peer"))
      ∧ (syncChunk traceExn 3 60 0 []).2.1 = 0 + 1 :=
  (claim_C7_amended traceExn 0 3 60 30 5 10 40 ("u") none none none none
    ("connection reset by peer") (by omega) (fun j hj => by omega) rfl).1

/-- C7 counterexample: with retry budget 3, a first-attempt connection
reset followed by a success that the claim says should be reached: the
synchronous chunk call instead raises ApiError after a single attempt,
never retrying. -/
theorem claim_C7_counterexample :
    traceExn 0 = .exn ("connection reset by peer")
    ∧ traceExn 1 = .httpStatus 200 ("") (okBody "completed" "d1")
    ∧ syncChunk traceExn 3 60 0 []
        = (.error (.apiError none ("connection reset by peer")), 1,
           [{ endpoint := .chunkEp, modelField := none, waitField := none,
              timeout := some 60 }])
    ∧ (Except.error (ApiException.apiError none ("connection reset by peer"))
        : Except ApiException ChunkResponse)
      ≠ Except.ok (sampleChunk .completed "d1") := by
  refine ⟨rfl, rfl, rfl, by simp⟩

/-- AsyncAurelioClient.extract_url with wait = 0 returns the submission
result unchanged. -/
lemma asyncExtractUrl_wait0 (trace : Trace) (url : String)
    (quality : Option ProcessingQuality) (modelArg : Option String)
    (pollingInterval : Int) (N : Nat) (wtbp : Int) (fuel : Nat)
    (idx : Nat) (log : List RequestRecord) :
    asyncExtractUrl trace url quality modelArg 0 pollingInterval N wtbp fuel idx log
      = (some (runLoop (asyncExtractUrlEnv url quality modelArg 0 pollingInterval wtbp)
            trace N idx log).1,
         (runLoop (asyncExtractUrlEnv url quality modelArg 0 pollingInterval wtbp)
            trace N idx log).2) := by
  rw [asyncExtractUrl, asyncExtractUrlTail_wait0]

/-- C6 (amended): a transport-level timeout is retried while attempts
remain and raises ApiTimeoutError carrying the request-level timeout on
the last attempt - for async chunk, sync get_document, embedding of both
clients and the four extract submissions, whose carried timeout is
wait + 1 when wait > 0 and absent otherwise.  The two exceptions: sync
chunk has no timeout handler and wraps a timeout as an immediate generic
ApiError without retrying, and async get_document raises ApiTimeoutError
immediately without retrying. -/
theorem claim_C6_amended (trace : Trace) (k N : Nat)
    (timeout wait pollingInterval wtbp : Int) (fuel : Nat) (url : String)
    (filePath fileName : Option String) (quality : Option ProcessingQuality)
    (modelArg : Option String)
    (hk : k < N)
    (hpre : ∀ j, j < k → trace j = .timeout) :
    (∀ txt body rc re remb, trace k = .httpStatus 200 txt body →
      decodeChunkResponse body = .ok rc →
      decodeExtractResponse body = .ok re →
      decodeEmbeddingResponse body = .ok remb →
      (asyncChunk trace N timeout 0 []).1 = .ok rc
      ∧ (syncGetDocument trace N timeout 0 []).1 = .ok re
      ∧ (syncEmbedding trace N timeout 0 []).1 = .ok remb
      ∧ (asyncEmbedding trace N timeout 0 []).1 = .ok remb
      ∧ (syncExtractFile trace filePath fileName quality modelArg 0 pollingInterval
          N wtbp fuel 0 []).1 = some (.ok re)
      ∧ (syncExtractUrl trace url quality modelArg 0 pollingInterval
          N wtbp fuel 0 []).1 = some (.ok re)
      ∧ (asyncExtractFile trace filePath fileName quality modelArg 0 pollingInterval
          N wtbp fuel 0 []).1 = some (.ok re)
      ∧ (asyncExtractUrl trace url quality modelArg 0 pollingInterval
          N wtbp fuel 0 []).1 = some (.ok re))
    ∧ ((∀ j, j < N → trace j = .timeout) →
      (asyncChunk trace N timeout 0 []).1 = .error (.timeoutError (some timeout))
      ∧ (syncGetDocument trace N timeout 0 []).1 = .error (.timeoutError (some timeout))
      ∧ (syncEmbedding trace N timeout 0 []).1 = .error (.timeoutError (some timeout))
      ∧ (asyncEmbedding trace N timeout 0 []).1 = .error (.timeoutError (some timeout))
      ∧ (syncExtractFile trace filePath fileName quality modelArg wait pollingInterval
          N wtbp fuel 0 []).1
        = some (.error (.timeoutError (if 0 < wait then some (wait + 1) else none)))
      ∧ (syncExtractUrl trace url quality modelArg wait pollingInterval
          N wtbp fuel 0 []).1
        = some (.error (.timeoutError (if 0 < wait then some (wait + 1) else none)))
      ∧ (asyncExtractFile trace filePath fileName quality modelArg wait pollingInterval
          N wtbp fuel 0 []).1
        = some (.error (.timeoutError (if wait ≤ 0 then none else some (wait + 1))))
      ∧ (asyncExtractUrl trace url quality modelArg wait pollingInterval
          N wtbp fuel 0 []).1
        = some (.error (.timeoutError (if wait ≤ 0 then none else some (wait + 1)))))
    ∧ (trace 0 = .timeout →
      syncChunk trace N timeout 0 []
        = (.error (.apiError none requestsTimeoutText), 1, [(syncChunkEnv timeout N).req]))
    ∧ (trace 0 = .timeout →
      asyncGetDocument trace N timeout 0 []
        = (.error (.timeoutError (some timeout)), 1, [(asyncGetDocumentEnv timeout).req])) := by
  obtain ⟨m, rfl⟩ : ∃ m, N = m + 1 := ⟨N - 1, by omega⟩
  refine ⟨?_, ?_, ?_, ?_⟩
  · intro txt body rc re remb h200 hdc hde hdm
    have hgen : ∀ {β : Type} (env : LoopEnv β) (r : β) (t : Option Int),
        env.timeoutPolicy = .retryThenRaise t → env.decode body = .ok r →
        (runLoop env trace (m + 1) 0 []).1 = .ok r := by
      intro β env r t hpol hd
      rw [runLoop_skip_200 env trace k (m + 1) txt body r hk
        (fun j hj => by simp [isRetryable, hpre j hj, hpol]) h200 hd]
    refine ⟨?_, ?_, ?_, ?_, ?_, ?_, ?_, ?_⟩
    · exact hgen (asyncChunkEnv timeout) rc _ rfl hdc
    · exact hgen (syncGetDocumentEnv timeout) re _ rfl hde
    · exact hgen (syncEmbeddingEnv timeout) remb _ rfl hdm
    · exact hgen (asyncEmbeddingEnv timeout) remb _ rfl hdm
    · rw [syncExtractFile, syncExtractTail_wait0]
      simpa using hgen (syncExtractFileEnv filePath fileName quality modelArg
        0 pollingInterval wtbp (m + 1)) re _ rfl hde
    · rw [syncExtractUrl, syncExtractTail_wait0]
      simpa using hgen (syncExtractUrlEnv url quality modelArg
        0 pollingInterval wtbp (m + 1)) re _ rfl hde
    · rw [asyncExtractFile, asyncExtractFileTail_wait0]
      simpa using hgen (asyncExtractFileEnv filePath fileName quality modelArg
        0 pollingInterval wtbp) re _ rfl hde
    · rw [asyncExtractUrl_wait0]
      simpa using hgen (asyncExtractUrlEnv url quality modelArg
        0 pollingInterval wtbp) re _ rfl hde
  · intro hall
    have hgen : ∀ {β : Type} (env : LoopEnv β) (t : Option Int),
        env.timeoutPolicy = .retryThenRaise t →
        (runLoop env trace (m + 1) 0 []).1 = .error (.timeoutError t) := by
      intro β env t hpol
      rw [runLoop_skip_timeout_last env trace (m + 1) t (by omega) hpol
        (fun j hj => by simp [isRetryable, hall j (by omega), hpol])
        (hall m (by omega))]
    refine ⟨hgen (asyncChunkEnv timeout) _ rfl,
      hgen (syncGetDocumentEnv timeout) _ rfl,
      hgen (syncEmbeddingEnv timeout) _ rfl,
      hgen (asyncEmbeddingEnv timeout) _ rfl, ?_, ?_, ?_, ?_⟩
    · rw [syncExtractFile]
      rcases hq : runLoop (syncExtractFileEnv filePath fileName quality modelArg
          wait pollingInterval wtbp (m + 1)) trace (m + 1) 0 [] with ⟨res, i, l⟩
      have := hgen (syncExtractFileEnv filePath fileName quality modelArg
        wait pollingInterval wtbp (m + 1)) _ rfl
      rw [hq] at this
      simp only at this
      rw [this, syncExtractTail_error]
    · rw [syncExtractUrl]
      rcases hq : runLoop (syncExtractUrlEnv url quality modelArg
          wait pollingInterval wtbp (m + 1)) trace (m + 1) 0 [] with ⟨res, i, l⟩
      have := hgen (syncExtractUrlEnv url quality modelArg
        wait pollingInterval wtbp (m + 1)) _ rfl
      rw [hq] at this
      simp only at this
      rw [this, syncExtractTail_error]
    · rw [asyncExtractFile]
      rcases hq : runLoop (asyncExtractFileEnv filePath fileName quality modelArg
          wait pollingInterval wtbp) trace (m + 1) 0 [] with ⟨res, i, l⟩
      have := hgen (asyncExtractFileEnv filePath fileName quality modelArg
        wait pollingInterval wtbp) _ rfl
      rw [hq] at this
      simp only at this
      rw [this]
      rfl
    · rw [asyncExtractUrl]
      rcases hq : runLoop (asyncExtractUrlEnv url quality modelArg
          wait pollingInterval wtbp) trace (m + 1) 0 [] with ⟨res, i, l⟩
      have := hgen (asyncExtractUrlEnv url quality modelArg
        wait pollingInterval wtbp) _ rfl
      rw [hq] at this
      simp only at this
      rw [this, asyncExtractUrlTail_error]
  · intro h0
    rw [syncChunk, runLoop,
      runLoopGo_timeout_wrap (syncChunkEnv timeout (m + 1)) trace m 0 []
        requestsTimeoutText h0 rfl]
    simp
  · intro h0
    rw [asyncGetDocument, runLoop,
      runLoopGo_timeout_now (asyncGetDocumentEnv timeout) trace m 0 []
        (some timeout) h0 rfl]
    simp

/-- A fixed trace: a timeout, then a perfectly good success. -/
def traceTimeout : Trace := fun i =>
  if i = 0 then .timeout
  else .httpStatus 200 ("") (okBody "completed" "d1")

/-- Witness for the amended C6: with budget 2 the asynchronous chunk call
retries a first-attempt timeout and returns the success. -/
theorem claim_C6_witness :
    (asyncChunk traceTimeout 2 60 0 []).1 = .ok (sampleChunk .completed "d1") :=
  ((claim_C6_amended traceTimeout 1 2 60 30 5 10 40 ("u") none none none none
    (by omega) (fun j hj => by
      have hj0 : j = 0 := by omega
      subst hj0; rfl)).1
    ("") (okBody "completed" "d1") (sampleChunk .completed "d1")
    (sampleExtract .completed "d1") (sampleEmbedding "completed" "d1")
    rfl rfl rfl rfl).1

/-- C6 counterexample: with budget 2 and attempts remaining, a
first-attempt timeout is not retried by the synchronous chunk call (it
raises a generic ApiError, not even ApiTimeoutError) nor by the
asynchronous get_document call (it raises ApiTimeoutError immediately);
the claim says both should have retried and reached the success at
attempt 2. -/
theorem claim_C6_counterexample :
    traceTimeout 0 = .timeout
    ∧ traceTimeout 1 = .httpStatus 200 ("") (okBody "completed" "d1")
    ∧ (syncChunk traceTimeout 2 60 0 []).1
        = .error (.apiError none requestsTimeoutText)
    ∧ (syncChunk traceTimeout 2 60 0 []).2.1 = 1
    ∧ (asyncGetDocument traceTimeout 2 30 0 []).1 = .error (.timeoutError (some 30))
    ∧ (asyncGetDocument traceTimeout 2 30 0 []).2.1 = 1
    ∧ (Except.error (ApiException.apiError none requestsTimeoutText)
        : Except ApiException ChunkResponse)
      ≠ Except.ok (sampleChunk .completed "d1") := by
  refine ⟨rfl, rfl, rfl, rfl, rfl, rfl, by simp⟩

/-- C5 (amended): for an extraction call with wait > 0 whose first
submission attempt returns 200 with a well-formed body: sync extract_file,
sync extract_url and async extract_file with polling_interval ≤ 0, and
async extract_url with polling_interval = 0, make exactly one submission
request, carrying the full wait as its wait form field and wait + 1 (not
wait) as its request-level timeout, and return the submission response
as-is with no status fetch; async extract_url with polling_interval < 0
instead sends WAIT_TIME_BEFORE_POLLING as the wait field and, when the
submission response is non-terminal, proceeds to poll the status-fetch
endpoint. -/
theorem claim_C5_amended (trace : Trace) (N : Nat)
    (wait pollingInterval wtbp : Int) (fuel : Nat) (url : String)
    (filePath fileName : Option String) (quality : Option ProcessingQuality)
    (modelArg : Option String) (txt : String) (body : JVal) (r : ExtractResponse)
    (hN : 1 ≤ N) (hw : 0 < wait)
    (h200 : trace 0 = .httpStatus 200 txt body)
    (hd : decodeExtractResponse body = .ok r) :
    (pollingInterval ≤ 0 →
      syncExtractFile trace filePath fileName quality modelArg wait pollingInterval
          N wtbp fuel 0 []
        = (some (.ok r), 1,
           [{ endpoint := .extractFileEp,
              modelField := some (inferFileModel filePath fileName quality modelArg),
              waitField := some wait, timeout := some (wait + 1) }]))
    ∧ (pollingInterval ≤ 0 →
      syncExtractUrl trace url quality modelArg wait pollingInterval N wtbp fuel 0 []
        = (some (.ok r), 1,
           [{ endpoint := .extractUrlEp,
              modelField := some (inferUrlModel url quality modelArg),
              waitField := some wait, timeout := some (wait + 1) }]))
    ∧ (pollingInterval ≤ 0 →
      asyncExtractFile trace filePath fileName quality modelArg wait pollingInterval
          N wtbp fuel 0 []
        = (some (.ok r), 1,
           [{ endpoint := .extractFileEp,
              modelField := some (inferFileModel filePath fileName quality modelArg),
              waitField := some wait, timeout := some (wait + 1) }]))
    ∧ (pollingInterval = 0 →
      asyncExtractUrl trace url quality modelArg wait pollingInterval N wtbp fuel 0 []
        = (some (.ok r), 1,
           [{ endpoint := .extractUrlEp,
              modelField := some (inferUrlModel url quality modelArg),
              waitField := some wait, timeout := some (wait + 1) }]))
    ∧ (pollingInterval < 0 → isFinalStatus r.status = false →
      asyncExtractUrl trace url quality modelArg wait pollingInterval N wtbp fuel 0 []
        = asyncWaitFor trace wait pollingInterval fuel 1
           [{ endpoint := .extractUrlEp,
              modelField := some (inferUrlModel url quality modelArg),
              waitField := some wtbp, timeout := some (wait + 1) }]) := by
  have hw0 : ¬ wait = 0 := by omega
  have hw1 : ¬ wait ≤ 0 := by omega
  have hloop : ∀ (env : LoopEnv ExtractResponse),
      env.decode body = .ok r →
      runLoop env trace N 0 [] = (.ok r, 1, [env.req]) := by
    intro env hdec
    have := runLoop_skip_200 env trace 0 N txt body r (by omega)
      (fun j hj => absurd hj (by omega)) h200 hdec
    simpa using this
  refine ⟨?_, ?_, ?_, ?_, ?_⟩
  · intro hp
    have hnp : ¬ 0 < pollingInterval := by omega
    rw [syncExtractFile,
      hloop (syncExtractFileEnv filePath fileName quality modelArg
        wait pollingInterval wtbp N) hd]
    simp [syncExtractTail, hw0, hp, syncExtractFileEnv, extractEnv, hnp, hw]
  · intro hp
    have hnp : ¬ 0 < pollingInterval := by omega
    rw [syncExtractUrl,
      hloop (syncExtractUrlEnv url quality modelArg wait pollingInterval wtbp N) hd]
    simp [syncExtractTail, hw0, hp, syncExtractUrlEnv, extractEnv, hnp, hw]
  · intro hp
    have hnp : ¬ 0 < pollingInterval := by omega
    rw [asyncExtractFile,
      hloop (asyncExtractFileEnv filePath fileName quality modelArg
        wait pollingInterval wtbp) hd]
    simp [asyncExtractFileTail, hw0, hp, asyncExtractFileEnv, extractEnv, hnp, hw1]
  · intro hp
    have hnp : ¬ pollingInterval < 0 := by omega
    rw [asyncExtractUrl,
      hloop (asyncExtractUrlEnv url quality modelArg wait pollingInterval wtbp) hd]
    simp [asyncExtractUrlTail, hw0, hp, asyncExtractUrlEnv, extractEnv, hnp, hw1]
  · intro hp hnf
    have hnp : ¬ pollingInterval = 0 := by omega
    rw [asyncExtractUrl,
      hloop (asyncExtractUrlEnv url quality modelArg wait pollingInterval wtbp) hd]
    simp [asyncExtractUrlTail, hw0, hnf, hnp, asyncExtractUrlEnv, extractEnv, hp, hw1]

/-- A fixed trace: every attempt answers 200 with a completed body. -/
def traceCompleted : Trace := fun _ => .httpStatus 200 ("") (okBody "completed" "d1")

/-- Witness for the amended C5: sync extract_url with wait 30 and polling
disabled makes one submission carrying wait field 30 and timeout 31. -/
theorem claim_C5_witness :
    syncExtractUrl traceCompleted ("u.pdf") none none 30 0 3 10 40 0 []
      = (some (.ok (sampleExtract .completed "d1")), 1,
         [{ endpoint := .extractUrlEp,
            modelField := some (inferUrlModel ("u.pdf") none none),
            waitField := some 30, timeout := some 31 }]) :=
  (claim_C5_amended traceCompleted 3 30 0 10 40 ("u.pdf") none none none none
    ("") (okBody "completed" "d1") (sampleExtract .completed "d1")
    (by omega) (by omega) rfl rfl).2.1 (by omega)

/-- A fixed trace: a pending submission answer, then completed answers. -/
def tracePendingThenDone : Trace := fun i =>
  if i = 0 then .httpStatus 200 ("") (okBody "pending" "d1")
  else .httpStatus 200 ("") (okBody "completed" "d1")

/-- C5 counterexample, two parts.  First, the request-level timeout is
wait + 1, not wait: sync extract_url with wait 30 sends timeout 31.
Second, async extract_url with polling_interval = -1 (which is ≤ 0) sends
WAIT_TIME_BEFORE_POLLING = 10 as the wait field instead of the full 30,
and after a pending submission response it does hit the status-fetch
endpoint (a getDocument request appears in the log), both against the
claim. -/
theorem claim_C5_counterexample :
    (syncExtractUrl traceCompleted ("u.pdf") none none 30 0 3 10 40 0 []).2.2
      = [{ endpoint := .extractUrlEp, modelField := some ("aurelio-base"),
           waitField := some 30, timeout := some 31 }]
    ∧ (31 : Int) ≠ 30
    ∧ asyncExtractUrl tracePendingThenDone ("u.pdf") none none 30 (-1) 3 10 40 0 []
      = (some (.ok (sampleExtract .completed "d1")), 2,
         [{ endpoint := .extractUrlEp, modelField := some ("aurelio-base"),
            waitField := some 10, timeout := some 31 },
          { endpoint := .getDocumentEp, modelField := none,
            waitField := none, timeout := some 30 }])
    ∧ (10 : Int) ≠ 30 := by
  refine ⟨rfl, by omega, rfl, by omega⟩

/-- Appending an unrelated key to a JSON object leaves lookups of other
keys unchanged. -/
lemma jLookup_append_ne (fs : List (String × JVal)) (k : String) (v : JVal)
    (key : String) (hne : key ≠ k) :
    jLookup (fs ++ [(k, v)]) key = jLookup fs key := by
  induction fs with
  | nil => simp [jLookup, Ne.symm hne]
  | cons hd tl ih =>
    rcases hd with ⟨k1, v1⟩
    by_cases h : k1 = key
    · simp [jLookup, h]
    · simp [jLookup, h, ih]

@[simp] lemma reqField_append_ne (fs : List (String × JVal)) (k : String) (v : JVal)
    (key : String) (d : JVal → Except String α) (hne : key ≠ k) :
    reqField (fs ++ [(k, v)]) key d = reqField fs key d := by
  simp [reqField, jLookup_append_ne fs k v key hne]

@[simp] lemma optField_append_ne (fs : List (String × JVal)) (k : String) (v : JVal)
    (key : String) (d : JVal → Except String α) (hne : key ≠ k) :
    optField (fs ++ [(k, v)]) key d = optField fs key d := by
  simp [optField, jLookup_append_ne fs k v key hne]

/-- After k retried attempts, a 200 attempt whose body fails to decode
makes the call raise a generic ApiError wrapping the validation message,
having consumed exactly k + 1 attempts. -/
lemma runLoop_skip_200_badbody (env : LoopEnv α) (trace : Trace) (k N : Nat)
    (txt : String) (body : JVal) (m : String) (hk : k < N)
    (hpre : ∀ j, j < k → isRetryable env.timeoutPolicy (trace j) = true)
    (h200 : trace k = .httpStatus 200 txt body) (hd : env.decode body = .error m) :
    runLoop env trace N 0 []
      = (.error (.apiError none m), k + 1, List.replicate (k + 1) env.req) := by
  obtain ⟨m1, rfl⟩ : ∃ m1, N = m1 + 1 := ⟨N - 1, by omega⟩
  rw [runLoop, runLoopGo_skip env trace k m1 0 [] (by omega)
    (fun j hj => by simpa using hpre j hj)]
  obtain ⟨m2, hm2⟩ : ∃ m2, m1 + 1 - k = m2 + 1 := ⟨m1 - k, by omega⟩
  simp only [Nat.zero_add, List.nil_append]
  rw [hm2, runLoopGo_200_badbody env trace m2 k _ txt body m h200 hd]
  simp [← List.replicate_succ']

/-- C9 (amended): constructing the chunk response record from a 200 body
ignores unknown extra fields; a body missing a required field fails
validation at the schema layer (a pydantic ValidationError, modelled as a
decode error); the chunk clients catch that failure in their blanket
exception handler and raise it immediately as a generic ApiError - not as
a distinct validation error type - making no further HTTP attempt. -/
theorem claim_C9_amended (fs : List (String × JVal)) (k : String) (v : JVal)
    (trace : Trace) (kAtt N : Nat) (timeout : Int)
    (txt : String) (body : JVal) (m : String)
    (hk : k ∉ (["status", "usage", "message", "processing_options",
      "document"] : List String))
    (hmiss : jLookup fs "status" = none)
    (hkAtt : kAtt < N)
    (hpre : ∀ j, j < kAtt → is5xx (trace j) = true)
    (h200 : trace kAtt = .httpStatus 200 txt body)
    (hbad : decodeChunkResponse body = .error m) :
    decodeChunkResponse (.obj (fs ++ [(k, v)])) = decodeChunkResponse (.obj fs)
    ∧ decodeChunkResponse (.obj fs) = .error ("missing required field " ++ "status")
    ∧ syncChunk trace N timeout 0 []
      = (.error (.apiError none m), kAtt + 1,
         List.replicate (kAtt + 1) (syncChunkEnv timeout N).req)
    ∧ asyncChunk trace N timeout 0 []
      = (.error (.apiError none m), kAtt + 1,
         List.replicate (kAtt + 1) (asyncChunkEnv timeout).req) := by
  simp only [List.mem_cons, List.mem_singleton, not_or] at hk
  obtain ⟨h1, h2, h3, h4, h5, -⟩ := hk
  refine ⟨?_, ?_, ?_, ?_⟩
  · simp only [decodeChunkResponse]
    rw [reqField_append_ne fs k v _ _ (Ne.symm h1),
      reqField_append_ne fs k v _ _ (Ne.symm h2),
      optField_append_ne fs k v _ _ (Ne.symm h3),
      reqField_append_ne fs k v _ _ (Ne.symm h4),
      reqField_append_ne fs k v _ _ (Ne.symm h5)]
  · simp only [decodeChunkResponse, reqField, hmiss]
    rfl
  · rw [syncChunk, runLoop_skip_200_badbody (syncChunkEnv timeout N) trace kAtt N
      txt body m hkAtt (fun j hj => isRetryable_of_5xx _ _ (hpre j hj)) h200 hbad]
  · rw [asyncChunk, runLoop_skip_200_badbody (asyncChunkEnv timeout) trace kAtt N
      txt body m hkAtt (fun j hj => isRetryable_of_5xx _ _ (hpre j hj)) h200 hbad]

/-- A body missing the required status field (it has a document and an
unknown extra field only). -/
def badBody : JVal := .obj [("document", docBody "d1"), ("zebra", .num 7)]

/-- A fixed trace answering 200 with the malformed body. -/
def traceBadBody : Trace := fun _ => .httpStatus 200 ("") badBody

/-- Witness for the amended C9: the synchronous chunk call wraps the
missing-status validation failure as an immediate ApiError after one
attempt. -/
theorem claim_C9_witness :
    syncChunk traceBadBody 3 60 0 []
      = (.error (.apiError none ("missing required field " ++ "status")), 0 + 1,
         List.replicate (0 + 1) (syncChunkEnv 60 3).req) :=
  (claim_C9_amended [("document", docBody "d1")] ("zebra") (.num 7)
    traceBadBody 0 3 60 ("") badBody ("missing required field " ++ "status")
    (by decide) rfl (by omega) (fun j hj => by omega) rfl rfl).2.2.1

/-- C9 counterexample: on a 200 response whose body lacks the required
status field, the synchronous chunk client does not raise a distinct
validation error: it raises the generic ApiError (the API error class),
wrapping the pydantic message, after exactly one attempt. -/
theorem claim_C9_counterexample :
    decodeChunkResponse badBody = .error ("missing required field " ++ "status")
    ∧ (syncChunk traceBadBody 3 60 0 []).1
      = .error (.apiError none ("missing required field " ++ "status"))
    ∧ (syncChunk traceBadBody 3 60 0 []).2.1 = 1
    ∧ (ApiException.apiError none ("missing required field " ++ "status")).kind
      = ExnKind.apiError none := by
  refine ⟨rfl, rfl, rfl, rfl⟩

/-- C10 (amended): with model = None, extract_file sends aurelio-base
whenever the lowercased pathlib suffix of the file path (or, failing a
path, of the file name attribute) is .mp4 - not whenever the name merely
ends in .mp4, which differs for dotfiles such as ".mp4" whose pathlib
suffix is empty - regardless of quality; otherwise quality high maps to
docling-base and any other quality (None or low) to aurelio-base.
extract_url sends aurelio-base whenever the lowercased URL ends in .mp4
or contains the substring video, with the same quality fallback, exactly
as claimed; an explicit model argument is always passed through. -/
theorem claim_C10_amended (p n url : String) (q : Option ProcessingQuality)
    (m : String) :
    (∀ fp fn qq, inferFileModel fp fn qq (some m) = m)
    ∧ (∀ qq, inferUrlModel url qq (some m) = m)
    ∧ (lowerStr (pathSuffix p) = ".mp4" →
      ∀ fn qq, inferFileModel (some p) fn qq none = "aurelio-base")
    ∧ (lowerStr (pathSuffix p) ≠ ".mp4" →
      ∀ fn, inferFileModel (some p) fn q none
        = (if q = some .high then "docling-base" else "aurelio-base"))
    ∧ (lowerStr (pathSuffix n) = ".mp4" →
      ∀ qq, inferFileModel none (some n) qq none = "aurelio-base")
    ∧ (lowerStr (pathSuffix n) ≠ ".mp4" →
      inferFileModel none (some n) q none
        = (if q = some .high then "docling-base" else "aurelio-base"))
    ∧ (inferFileModel none none q none
        = (if q = some .high then "docling-base" else "aurelio-base"))
    ∧ ((endsWithStr (lowerStr url) (".mp4") || containsSub (lowerStr url) ("video"))
        = true → ∀ qq, inferUrlModel url qq none = "aurelio-base")
    ∧ ((endsWithStr (lowerStr url) (".mp4") || containsSub (lowerStr url) ("video"))
        = false → inferUrlModel url q none
        = (if q = some .high then "docling-base" else "aurelio-base")) := by
  refine ⟨?_, ?_, ?_, ?_, ?_, ?_, ?_, ?_, ?_⟩
  · intro fp fn qq; rfl
  · intro qq; rfl
  · intro h fn qq
    have hb : (lowerStr (pathSuffix p) == ".mp4") = true := by
      simpa using h
    simp [inferFileModel, hb]
  · intro h fn
    have hb : (lowerStr (pathSuffix p) == ".mp4") = false := by
      simpa using h
    simp [inferFileModel, hb]
  · intro h qq
    have hb : (lowerStr (pathSuffix n) == ".mp4") = true := by
      simpa using h
    simp [inferFileModel, hb]
  · intro h
    have hb : (lowerStr (pathSuffix n) == ".mp4") = false := by
      simpa using h
    simp [inferFileModel, hb]
  · simp [inferFileModel]
  · intro h qq
    simp [inferUrlModel, h]
  · intro h
    simp only [Bool.or_eq_false_iff] at h
    simp [inferUrlModel, h.1, h.2]

/-- Witness for the amended C10: a file path with suffix .mp4 forces
aurelio-base even at quality high, and a plain PDF path at quality high
maps to docling-base. -/
theorem claim_C10_witness :
    inferFileModel (some ("clip.mp4")) none (some .high) none = "aurelio-base"
    ∧ inferFileModel (some ("doc.pdf")) none (some .high) none = "docling-base" :=
  ⟨(claim_C10_amended ("clip.mp4") ("n") ("u") (some .high) ("m")).2.2.1
      rfl none (some .high),
   (claim_C10_amended ("doc.pdf") ("n") ("u") (some .high) ("m")).2.2.2.1
      (by decide) none⟩

/-- C10 counterexample: the dotfile path ".mp4" does end in ".mp4", so the
claim prescribes aurelio-base regardless of quality; but its pathlib
suffix is empty, so with quality high the code sends docling-base. -/
theorem claim_C10_counterexample :
    endsWithStr (".mp4") (".mp4") = true
    ∧ pathSuffix (".mp4") = ""
    ∧ inferFileModel (some (".mp4")) none (some .high) none = "docling-base"
    ∧ "docling-base" ≠ "aurelio-base" := by
  refine ⟨rfl, rfl, rfl, by decide⟩

/-- Congruence for the full wait_for operation (initial fetch included). -/
lemma waitForWith_congr
    (gd1 gd2 : Nat → List RequestRecord → CallResult ExtractResponse)
    (hgd : ∀ (i : Nat) (l1 l2 : List RequestRecord),
      outcomeKind (gd1 i l1).1 = outcomeKind (gd2 i l2).1 ∧ (gd1 i l1).2.1 = (gd2 i l2).2.1)
    (wait p : Int) (fuel idx : Nat) (log1 log2 : List RequestRecord) :
    optKind (waitForWith gd1 wait p fuel idx log1).1
        = optKind (waitForWith gd2 wait p fuel idx log2).1
      ∧ (waitForWith gd1 wait p fuel idx log1).2.1
        = (waitForWith gd2 wait p fuel idx log2).2.1 := by
  have hk := hgd idx log1 log2
  rcases hq1 : gd1 idx log1 with ⟨res1, i1, l1x⟩
  rcases hq2 : gd2 idx log2 with ⟨res2, i2, l2x⟩
  rw [hq1, hq2] at hk
  simp only at hk
  obtain ⟨hkr, hki⟩ := hk
  cases res1 with
  | ok r1 =>
    cases res2 with
    | ok r2 =>
      have hr : r1 = r2 := by simpa [outcomeKind] using hkr
      subst hr
      subst hki
      rw [waitForWith, waitForWith, hq1, hq2]
      exact waitForGo_congr gd1 gd2 hgd wait p fuel r1 0 i1 l1x l2x
    | error e2 => simp [outcomeKind] at hkr
  | error e1 =>
    cases res2 with
    | ok r2 => simp [outcomeKind] at hkr
    | error e2 =>
      have he : e1.kind = e2.kind := by simpa [outcomeKind] using hkr
      rw [waitForWith, waitForWith, hq1, hq2]
      simp [optKind, outcomeKind, he, hki]

/-- On traces without transport timeouts, the sync and async get_document
operations agree up to error kind and trace consumption. -/
lemma getDocument_congr (trace : Trace) (hnt : ∀ i, trace i ≠ .timeout)
    (i : Nat) (l1 l2 : List RequestRecord) :
    outcomeKind (syncGetDocument trace 3 30 i l1).1
        = outcomeKind (asyncGetDocument trace 3 30 i l2).1
      ∧ (syncGetDocument trace 3 30 i l1).2.1 = (asyncGetDocument trace 3 30 i l2).2.1 :=
  runLoopGo_congr (syncGetDocumentEnv 30) (asyncGetDocumentEnv 30) trace rfl
    (Or.inr hnt) 3 i l1 l2

/-- On traces without transport timeouts, the sync and async wait_for
loops agree up to error kind and trace consumption. -/
lemma waitFor_congr (trace : Trace) (hnt : ∀ i, trace i ≠ .timeout)
    (wait p : Int) (fuel idx : Nat) (log1 log2 : List RequestRecord) :
    optKind (syncWaitFor trace wait p fuel idx log1).1
        = optKind (asyncWaitFor trace wait p fuel idx log2).1
      ∧ (syncWaitFor trace wait p fuel idx log1).2.1
        = (asyncWaitFor trace wait p fuel idx log2).2.1 :=
  waitForWith_congr _ _ (getDocument_congr trace hnt) wait p fuel idx log1 log2

/-- On traces without timeouts, the sync and async extract_file tails map
kind-equal submissions to kind-equal outcomes. -/
lemma extractFileTails_congr (trace : Trace) (hnt : ∀ i, trace i ≠ .timeout)
    (wait p : Int) (fuel : Nat) (x y : CallResult ExtractResponse)
    (hkr : outcomeKind x.1 = outcomeKind y.1) (hki : x.2.1 = y.2.1) :
    optKind (syncExtractTail trace wait p fuel x).1
      = optKind (asyncExtractFileTail trace wait p fuel y).1 := by
  rcases x with ⟨res1, i1, l1⟩
  rcases y with ⟨res2, i2, l2⟩
  simp only at hkr hki
  subst hki
  cases res1 with
  | ok r1 =>
    cases res2 with
    | ok r2 =>
      have hr : r1 = r2 := by simpa [outcomeKind] using hkr
      subst hr
      by_cases hw : wait = 0
      · simp [syncExtractTail, asyncExtractFileTail, hw]
      · by_cases hf : isFinalStatus r1.status || decide (p ≤ 0)
        · simp [syncExtractTail, asyncExtractFileTail, hw, hf]
        · simp only [syncExtractTail, asyncExtractFileTail, if_neg hw, hf,
            Bool.false_eq_true, if_neg, if_false]
          exact (waitFor_congr trace hnt wait p fuel i1 l1 l2).1
    | error e2 => simp [outcomeKind] at hkr
  | error e1 =>
    cases res2 with
    | ok r2 => simp [outcomeKind] at hkr
    | error e2 =>
      have he : e1.kind = e2.kind := by simpa [outcomeKind] using hkr
      simp [syncExtractTail, asyncExtractFileTail, optKind, outcomeKind, he]

/-- On traces without timeouts and with a nonnegative polling interval,
the sync extract_url tail and the async extract_url tail (whose skip
condition is polling_interval == 0 rather than ≤ 0) map kind-equal
submissions to kind-equal outcomes. -/
lemma extractUrlTails_congr (trace : Trace) (hnt : ∀ i, trace i ≠ .timeout)
    (wait p : Int) (hp : 0 ≤ p) (fuel : Nat) (x y : CallResult ExtractResponse)
    (hkr : outcomeKind x.1 = outcomeKind y.1) (hki : x.2.1 = y.2.1) :
    optKind (syncExtractTail trace wait p fuel x).1
      = optKind (asyncExtractUrlTail trace wait p fuel y).1 := by
  rcases x with ⟨res1, i1, l1⟩
  rcases y with ⟨res2, i2, l2⟩
  simp only at hkr hki
  subst hki
  cases res1 with
  | ok r1 =>
    cases res2 with
    | ok r2 =>
      have hr : r1 = r2 := by simpa [outcomeKind] using hkr
      subst hr
      by_cases hw : wait = 0
      · simp [syncExtractTail, asyncExtractUrlTail, hw]
      · have hde : (decide (p ≤ 0)) = (decide (p = 0)) := by
          by_cases h0 : p = 0
          · simp [h0]
          · have h1 : ¬ p ≤ 0 := by omega
            simp [h0, h1]
        by_cases hf : isFinalStatus r1.status || decide (p ≤ 0)
        · have hf2 : (isFinalStatus r1.status || decide (p = 0)) = true := by
            rw [← hde]; exact hf
          simp [syncExtractTail, asyncExtractUrlTail, hw, hf, hf2]
        · have hf2 : ¬ (isFinalStatus r1.status || decide (p = 0)) = true := by
            rw [← hde]; exact hf
          simp only [syncExtractTail, asyncExtractUrlTail, if_neg hw, hf, hf2,
            Bool.false_eq_true, if_neg, if_false]
          exact (waitFor_congr trace hnt wait p fuel i1 l1 l2).1
    | error e2 => simp [outcomeKind] at hkr
  | error e1 =>
    cases res2 with
    | ok r2 => simp [outcomeKind] at hkr
    | error e2 =>
      have he : e1.kind = e2.kind := by simpa [outcomeKind] using hkr
      simp [syncExtractTail, asyncExtractUrlTail, optKind, outcomeKind, he]

/-- C2 (amended): given the same sequence of HTTP outcomes containing no
transport timeouts, each synchronous operation and its asynchronous
counterpart return the same result or raise an error of the same kind
(class, status code and carried timeout); extract_url additionally needs
polling_interval ≥ 0.  On timeouts they genuinely diverge: sync chunk
wraps a timeout as an immediate generic ApiError while async chunk
retries it, sync get_document retries timeouts while async raises
ApiTimeoutError at once, and async extract_url with polling_interval < 0
sends a different wait field and still polls where sync does not. -/
theorem claim_C2_amended (trace : Trace) (N : Nat)
    (timeout wait pollingInterval wtbp : Int) (fuel : Nat) (url : String)
    (filePath fileName : Option String) (quality : Option ProcessingQuality)
    (modelArg : Option String)
    (hnt : ∀ i, trace i ≠ .timeout) :
    outcomeKind (syncChunk trace N timeout 0 []).1
      = outcomeKind (asyncChunk trace N timeout 0 []).1
    ∧ outcomeKind (syncGetDocument trace N timeout 0 []).1
      = outcomeKind (asyncGetDocument trace N timeout 0 []).1
    ∧ outcomeKind (syncEmbedding trace N timeout 0 []).1
      = outcomeKind (asyncEmbedding trace N timeout 0 []).1
    ∧ optKind (syncExtractFile trace filePath fileName quality modelArg
        wait pollingInterval N wtbp fuel 0 []).1
      = optKind (asyncExtractFile trace filePath fileName quality modelArg
        wait pollingInterval N wtbp fuel 0 []).1
    ∧ (0 ≤ pollingInterval →
      optKind (syncExtractUrl trace url quality modelArg
          wait pollingInterval N wtbp fuel 0 []).1
        = optKind (asyncExtractUrl trace url quality modelArg
          wait pollingInterval N wtbp fuel 0 []).1) := by
  refine ⟨?_, ?_, ?_, ?_, ?_⟩
  · exact (runLoopGo_congr (syncChunkEnv timeout N) (asyncChunkEnv timeout) trace rfl
      (Or.inr hnt) N 0 [] []).1
  · exact (runLoopGo_congr (syncGetDocumentEnv timeout) (asyncGetDocumentEnv timeout)
      trace rfl (Or.inr hnt) N 0 [] []).1
  · exact (runLoopGo_congr (syncEmbeddingEnv timeout) (asyncEmbeddingEnv timeout)
      trace rfl (Or.inr hnt) N 0 [] []).1
  · rw [syncExtractFile, asyncExtractFile]
    have hsub := runLoopGo_congr
      (syncExtractFileEnv filePath fileName quality modelArg wait pollingInterval wtbp N)
      (asyncExtractFileEnv filePath fileName quality modelArg wait pollingInterval wtbp)
      trace rfl (Or.inr hnt) N 0 [] []
    exact extractFileTails_congr trace hnt wait pollingInterval fuel _ _ hsub.1 hsub.2
  · intro hp
    rw [syncExtractUrl, asyncExtractUrl]
    have hsub := runLoopGo_congr
      (syncExtractUrlEnv url quality modelArg wait pollingInterval wtbp N)
      (asyncExtractUrlEnv url quality modelArg wait pollingInterval wtbp)
      trace rfl (Or.inr hnt) N 0 [] []
    exact extractUrlTails_congr trace hnt wait pollingInterval hp fuel _ _ hsub.1 hsub.2

/-- Witness for the amended C2: on a timeout-free trace with two server
errors then a success, sync and async chunk agree. -/
theorem claim_C2_witness :
    outcomeKind (syncChunk trace500x2 3 60 0 []).1
      = outcomeKind (asyncChunk trace500x2 3 60 0 []).1 :=
  (claim_C2_amended trace500x2 3 60 30 5 10 40 ("u") none none none none
    (fun i => by unfold trace500x2; split <;> simp)).1

/-- C2 counterexample: on the trace [timeout, success] with budget 2 the
synchronous chunk call raises a generic ApiError while the asynchronous
chunk call retries and returns the decoded record - different results and
different error classes, so the clients are not functionally equivalent. -/
theorem claim_C2_counterexample :
    (syncChunk traceTimeout 2 60 0 []).1 = .error (.apiError none requestsTimeoutText)
    ∧ (asyncChunk traceTimeout 2 60 0 []).1 = .ok (sampleChunk .completed "d1")
    ∧ outcomeKind (syncChunk traceTimeout 2 60 0 []).1
      ≠ outcomeKind (asyncChunk traceTimeout 2 60 0 []).1 := by
  refine ⟨rfl, rfl, ?_⟩
  intro h
  rw [show (syncChunk traceTimeout 2 60 0 []).1
      = .error (.apiError none requestsTimeoutText) from rfl,
    show (asyncChunk traceTimeout 2 60 0 []).1
      = .ok (sampleChunk .completed "d1") from rfl] at h
  simp [outcomeKind] at h

end AurelioSDK
